import Mathlib

/-!
Verification of the per-cell finite-element evaluation kernel
(`source/fe/fe_values.cc` of the deal.II library).

This file gives a shallow embedding of:
  * the shape-function-to-row compression table
    (`internal::make_shape_function_to_row_table`),
  * the view descriptors (`FEValuesViews::{Scalar,Vector,SymmetricTensor,
    Tensor}` constructors, in particular the `single_nonzero_component`
    classifier),
  * the accumulation kernels (`FEValuesViews::internal::do_function_*`),
  * the view cache (`internal::FEValuesViews::Cache`),
  * the cell-similarity classification
    (`FEValuesBase::check_cell_similarity` and the similarity handling in
    `FEValues::do_reinit`),
and proves the spec-level properties of those components.

Modelling conventions:
  * The C++ sentinel `numbers::invalid_unsigned_int` that marks "no row"
    is embedded as `none : Option Nat`; a valid row index `r` is `some r`.
  * Machine `unsigned int` indices are embedded as `Nat` (the code is
    only used in regimes far below 2^32, where no wrap occurs), and the
    C++ `int` classifier `single_nonzero_component` as `Int`.
  * Coefficients and shape data are embedded over `ℚ`: the kernels are
    generic over the number type, and `ℚ` realizes the exact-arithmetic
    semantics with a decidable `CheckForZero` test
    (`internal::CheckForZero<Number>::value(v) = (v == 0)` for
    non-auto-differentiable number types).
  * Debug assertions (`Assert(false, ExcNotImplemented())`,
    the 1d-curl guard) are embedded as `Except.error`.
-/

namespace FEV

/-- The external `FiniteElement` collaborator, restricted to the queries
`fe_values.cc` makes of it: `n_dofs_per_cell()`, `n_components()`,
`is_primitive()`, `is_primitive(i)`, `system_to_component_index(i).first`
and the `get_nonzero_components(i)` bitmask. -/
structure FE where
  n_dofs_per_cell : Nat
  n_components : Nat
  is_primitive : Bool
  is_primitive_sf : Nat → Bool
  system_to_component_index : Nat → Nat
  nonzero_components : Nat → Nat → Bool

/-- The query `FiniteElement::n_nonzero_components(i)`: the number of set bits of the
shape function's nonzero-component mask (the external collaborator computes
this count from the very same mask it hands out via
`get_nonzero_components`). -/
def FE.n_nonzero_components (fe : FE) (i : Nat) : Nat :=
  ((List.range fe.n_components).filter (fe.nonzero_components i)).length

/-- Invariants the external `FiniteElement` guarantees and that
`fe_values.cc` relies on: a primitive shape function's nonzero-component
bitmask is the indicator of its `system_to_component_index`, which is a
valid component. -/
def FE.WellFormed (fe : FE) : Prop :=
  ∀ i, (fe.is_primitive || fe.is_primitive_sf i) = true →
    fe.system_to_component_index i < fe.n_components ∧
    ∀ c, fe.nonzero_components i c = decide (c = fe.system_to_component_index i)

/-! ## The row table builder (`internal::make_shape_function_to_row_table`) -/

/-- Inner loop of `make_shape_function_to_row_table`: for shape function `i`,
walk the components `cs` keeping the running count `nth` of nonzero
components seen so far; a nonzero component is mapped to row `row + nth`,
a zero component keeps the sentinel (`none`). -/
def rowEntriesAux (fe : FE) (i row : Nat) : List Nat → Nat → List (Option Nat)
  | [], _ => []
  | c :: cs, nth =>
    if fe.nonzero_components i c then
      some (row + nth) :: rowEntriesAux fe i row cs (nth + 1)
    else
      none :: rowEntriesAux fe i row cs nth

/-- Outer loop of `make_shape_function_to_row_table`: one table row block of
`n_components` entries per shape function; after shape function `i` the
free-row counter advances by `fe.n_nonzero_components i`. -/
def tableRows (fe : FE) : List Nat → Nat → List (List (Option Nat))
  | [], _ => []
  | i :: is', row =>
    rowEntriesAux fe i row (List.range fe.n_components) 0 ::
      tableRows fe is' (row + fe.n_nonzero_components i)

/-- The table `internal::make_shape_function_to_row_table(fe)`, as the list of
per-shape-function rows (the C++ flat vector indexed `i * n_components + c`
is the concatenation of these rows). -/
def make_shape_function_to_row_table (fe : FE) : List (List (Option Nat)) :=
  tableRows fe (List.range fe.n_dofs_per_cell) 0

/-- Entry `(i, c)` of the row table: the C++ access
`shape_function_to_row_table[i * fe.n_components() + c]`. -/
def rowTableEntry (fe : FE) (i c : Nat) : Option Nat :=
  (((make_shape_function_to_row_table fe).getD i []).getD c none)

/-- Total number of (shape function, nonzero component) pairs: the number of
genuine rows in the compressed storage. -/
def totalNonzero (fe : FE) : Nat :=
  ((List.range fe.n_dofs_per_cell).map fe.n_nonzero_components).sum

/-! ### Row table lemmas -/

theorem rowEntriesAux_length (fe : FE) (i row : Nat) :
    ∀ (cs : List Nat) (nth : Nat), (rowEntriesAux fe i row cs nth).length = cs.length := by
  intro cs
  induction cs with
  | nil => intro nth; rfl
  | cons c cs ih =>
    intro nth
    by_cases h : fe.nonzero_components i c
    · simp [rowEntriesAux, h, ih]
    · simp [rowEntriesAux, h, ih]

theorem rowEntriesAux_filterMap (fe : FE) (i row : Nat) :
    ∀ (cs : List Nat) (nth : Nat),
      (rowEntriesAux fe i row cs nth).filterMap id =
        (List.range (cs.filter (fe.nonzero_components i)).length).map
          (fun k => row + nth + k) := by
  intro cs
  induction cs with
  | nil => intro nth; rfl
  | cons c cs ih =>
    intro nth
    by_cases h : fe.nonzero_components i c
    · have e1 : rowEntriesAux fe i row (c :: cs) nth
          = some (row + nth) :: rowEntriesAux fe i row cs (nth + 1) := by
        simp [rowEntriesAux, h]
      rw [e1, List.filterMap_cons_some (f := id) rfl, ih,
        List.filter_cons_of_pos h, List.length_cons, List.range_succ_eq_map,
        List.map_cons, List.map_map]
      refine congrArg₂ List.cons (by simp) (List.map_congr_left ?_)
      intro k _
      simp only [Function.comp_apply, Nat.succ_eq_add_one]
      omega
    · have e1 : rowEntriesAux fe i row (c :: cs) nth
          = none :: rowEntriesAux fe i row cs nth := by
        simp [rowEntriesAux, h]
      rw [e1, List.filterMap_cons_none (f := id) rfl, ih,
        List.filter_cons_of_neg (by simpa using h)]

theorem rowEntriesAux_getD_isSome (fe : FE) (i row : Nat) :
    ∀ (cs : List Nat) (nth j : Nat), j < cs.length →
      (((rowEntriesAux fe i row cs nth).getD j none).isSome
        = fe.nonzero_components i (cs.getD j 0)) := by
  intro cs
  induction cs with
  | nil => intro nth j hj; simp at hj
  | cons c cs ih =>
    intro nth j hj
    by_cases h : fe.nonzero_components i c
    · have e1 : rowEntriesAux fe i row (c :: cs) nth
          = some (row + nth) :: rowEntriesAux fe i row cs (nth + 1) := by
        simp [rowEntriesAux, h]
      cases j with
      | zero => simp [e1, h]
      | succ j =>
        rw [e1]
        simpa using ih (nth + 1) j (by simpa using hj)
    · have e1 : rowEntriesAux fe i row (c :: cs) nth
          = none :: rowEntriesAux fe i row cs nth := by
        simp [rowEntriesAux, h]
      cases j with
      | zero => simp [e1]; simpa using h
      | succ j =>
        rw [e1]
        simpa using ih nth j (by simpa using hj)

/-- Sum of the nonzero-component counts of the shape functions in `l`. -/
def sumNnc (fe : FE) (l : List Nat) : Nat :=
  (l.map fe.n_nonzero_components).sum

theorem tableRows_length (fe : FE) :
    ∀ (l : List Nat) (row : Nat), (tableRows fe l row).length = l.length := by
  intro l
  induction l with
  | nil => intro row; rfl
  | cons i l ih => intro row; simp [tableRows, ih]

theorem tableRows_getD (fe : FE) :
    ∀ (l : List Nat) (row j : Nat), j < l.length →
      (tableRows fe l row).getD j []
        = rowEntriesAux fe (l.getD j 0) (row + sumNnc fe (l.take j))
            (List.range fe.n_components) 0 := by
  intro l
  induction l with
  | nil => intro row j hj; simp at hj
  | cons i l ih =>
    intro row j hj
    cases j with
    | zero => simp [tableRows, sumNnc]
    | succ j =>
      rw [tableRows]
      have := ih (row + fe.n_nonzero_components i) j (by simpa using hj)
      simp only [List.getD_cons_succ, List.take_succ_cons]
      rw [this]
      congr 1
      simp [sumNnc, Nat.add_assoc]

theorem tableRows_flatten_filterMap (fe : FE) :
    ∀ (l : List Nat) (row : Nat),
      ((tableRows fe l row).flatten).filterMap id
        = (List.range (sumNnc fe l)).map (fun k => row + k) := by
  intro l
  induction l with
  | nil => intro row; simp [tableRows, sumNnc]
  | cons i l ih =>
    intro row
    rw [tableRows, List.flatten_cons, List.filterMap_append,
      rowEntriesAux_filterMap, ih]
    have hsum : sumNnc fe (i :: l) = fe.n_nonzero_components i + sumNnc fe l := by
      simp [sumNnc]
    rw [hsum, List.range_add, List.map_append, List.map_map]
    have hlen : (List.filter (fe.nonzero_components i)
        (List.range fe.n_components)).length = fe.n_nonzero_components i := rfl
    rw [hlen]
    congr 1
    exact List.map_congr_left (fun k _ => by
      simp only [Function.comp_apply]; omega)

/-- Entry `(i, c)` of the row table is non-sentinel exactly when component
`c` is nonzero for shape function `i`. -/
theorem rowTableEntry_isSome (fe : FE) (i c : Nat)
    (hi : i < fe.n_dofs_per_cell) (hc : c < fe.n_components) :
    (rowTableEntry fe i c).isSome = fe.nonzero_components i c := by
  unfold rowTableEntry make_shape_function_to_row_table
  rw [tableRows_getD fe _ 0 i (by simpa using hi)]
  rw [rowEntriesAux_getD_isSome fe _ _ _ 0 c (by simpa using hc)]
  congr 1
  · simp [List.getD_eq_getElem?_getD, List.getElem?_range hi]
  · simp [List.getD_eq_getElem?_getD, List.getElem?_range hc]

/-! ## View descriptors (`FEValuesViews::{Scalar,Vector,SymmetricTensor,Tensor}`) -/

/-- The `ShapeFunctionData` of the `Scalar` view: one nonzero flag and, when it
is set, the storage row of the selected component. -/
structure ScalarSFD where
  is_nonzero_shape_function_component : Bool
  row_index : Option Nat

/-- The body of the `FEValuesViews::Scalar` constructor loop for shape
function `i`. -/
def Scalar.shape_function_data (fe : FE) (component i : Nat) : ScalarSFD :=
  let flag : Bool :=
    if fe.is_primitive || fe.is_primitive_sf i then
      decide (component = fe.system_to_component_index i)
    else
      fe.nonzero_components i component
  { is_nonzero_shape_function_component := flag
    row_index := if flag then rowTableEntry fe i component else none }

/-- The `ShapeFunctionData` of a `K`-sub-component view
(`Vector` with `K = spacedim`, `SymmetricTensor` with
`K = (dim*dim+dim)/2`, `Tensor` with `K = dim*dim`): per-sub-component
flags and row indices plus the derived ternary classifier. -/
structure ViewSFD where
  is_nonzero_shape_function_component : Nat → Bool
  row_index : Nat → Option Nat
  single_nonzero_component : Int
  single_nonzero_component_index : Nat

/-- The per-sub-component nonzero flag set by the first constructor loop of
the `Vector`/`SymmetricTensor`/`Tensor` views (`d`-th sub-component,
selected component `first + d`). -/
def viewFlag (fe : FE) (first K i d : Nat) : Bool :=
  if d < K then
    (if fe.is_primitive || fe.is_primitive_sf i then
      decide (first + d = fe.system_to_component_index i)
    else
      fe.nonzero_components i (first + d))
  else false

/-- The per-sub-component row index set by the first constructor loop:
the row table entry when the flag is set, the sentinel otherwise. -/
def viewRowIndex (fe : FE) (first K i d : Nat) : Option Nat :=
  if viewFlag fe first K i d then rowTableEntry fe i (first + d) else none

/-- The second constructor loop of the `Vector`/`SymmetricTensor`/`Tensor`
views: count the nonzero sub-components and derive the
`single_nonzero_component` classifier (`-2` none, `-1` several, otherwise
the unique sub-component's row index) together with
`single_nonzero_component_index`.  The sentinel row (`none`) maps to `-1`
mirroring the two's-complement conversion of `invalid_unsigned_int` to
`int`; for a well-formed element this case is unreachable. -/
def makeViewSFD (fe : FE) (first K i : Nat) : ViewSFD :=
  let flag := viewFlag fe first K i
  let row := viewRowIndex fe first K i
  let cnt := ((List.range K).filter flag).length
  if cnt = 0 then ⟨flag, row, -2, 0⟩
  else if 1 < cnt then ⟨flag, row, -1, 0⟩
  else
    let d := ((List.range K).find? flag).getD 0
    ⟨flag, row, (match row d with | some r => (r : Int) | none => -1), d⟩

/-- The `FEValuesViews::Vector` shape function data: `K = spacedim`
sub-components starting at `first_vector_component`. -/
def Vector.shape_function_data (spacedim : Nat) (fe : FE)
    (first_vector_component i : Nat) : ViewSFD :=
  makeViewSFD fe first_vector_component spacedim i

/-- The count `SymmetricTensor<2, d>::n_independent_components = d * (d + 1) / 2`. -/
def symTensor2Components (d : Nat) : Nat := (d * d + d) / 2

/-- The `FEValuesViews::SymmetricTensor<2>` shape function data:
`K = SymmetricTensor<2, dim>::n_independent_components` sub-components
starting at `first_tensor_component`. -/
def SymmetricTensor.shape_function_data (dim : Nat) (fe : FE)
    (first_tensor_component i : Nat) : ViewSFD :=
  makeViewSFD fe first_tensor_component (symTensor2Components dim) i

/-- The `FEValuesViews::Tensor<2>` shape function data: `K = dim * dim`
sub-components starting at `first_tensor_component`. -/
def Tensor.shape_function_data (dim : Nat) (fe : FE)
    (first_tensor_component i : Nat) : ViewSFD :=
  makeViewSFD fe first_tensor_component (dim * dim) i

/-- The classifier consistency property of a `K`-sub-component view
descriptor: `-2` iff all flags clear, `-1` iff at least two flags set,
otherwise the row index of the unique set flag, whose position is recorded
in `single_nonzero_component_index`. -/
def classifierCorrect (sfd : ViewSFD) (K : Nat) : Prop :=
  (sfd.single_nonzero_component = -2 ↔
    ∀ d, d < K → sfd.is_nonzero_shape_function_component d = false) ∧
  (sfd.single_nonzero_component = -1 ↔
    ∃ d₁ d₂, d₁ < K ∧ d₂ < K ∧ d₁ ≠ d₂ ∧
      sfd.is_nonzero_shape_function_component d₁ = true ∧
      sfd.is_nonzero_shape_function_component d₂ = true) ∧
  (sfd.single_nonzero_component ≠ -2 → sfd.single_nonzero_component ≠ -1 →
    ∃ d, d < K ∧ sfd.is_nonzero_shape_function_component d = true ∧
      (∀ d', d' < K → sfd.is_nonzero_shape_function_component d' = true → d' = d) ∧
      sfd.single_nonzero_component_index = d ∧
      0 ≤ sfd.single_nonzero_component ∧
      sfd.row_index d = some sfd.single_nonzero_component.toNat)

theorem filter_range_length_zero_iff (K : Nat) (p : Nat → Bool) :
    (((List.range K).filter p).length = 0 ↔ ∀ d, d < K → p d = false) := by
  rw [List.length_eq_zero, List.filter_eq_nil_iff]
  constructor
  · intro h d hd
    have := h d (List.mem_range.mpr hd)
    simpa using this
  · intro h d hd
    simp [h d (List.mem_range.mp hd)]

theorem two_mem_of_one_lt_length {α} {l : List α} (hn : l.Nodup)
    (h : 1 < l.length) : ∃ a b, a ∈ l ∧ b ∈ l ∧ a ≠ b := by
  cases l with
  | nil => simp at h
  | cons a t =>
    cases t with
    | nil => simp at h
    | cons b t =>
      refine ⟨a, b, by simp, by simp, ?_⟩
      intro hab
      subst hab
      simp [List.nodup_cons] at hn

theorem one_lt_length_of_two_mem {α} {l : List α} {a b : α}
    (ha : a ∈ l) (hb : b ∈ l) (hab : a ≠ b) : 1 < l.length := by
  cases l with
  | nil => simp at ha
  | cons x t =>
    cases t with
    | nil =>
      simp only [List.mem_singleton] at ha hb
      exact absurd (ha.trans hb.symm) hab
    | cons y t => simp [List.length_cons]

/-- Core classifier lemma: provided every set flag has a genuine (non-
sentinel) row-table entry, the second constructor loop establishes the
classifier consistency property. -/
theorem makeViewSFD_classifierCorrect (fe : FE) (first K i : Nat)
    (hrow : ∀ d, d < K → viewFlag fe first K i d = true →
      (viewRowIndex fe first K i d).isSome = true) :
    classifierCorrect (makeViewSFD fe first K i) K := by
  by_cases h0 : ((List.range K).filter (viewFlag fe first K i)).length = 0
  · have hsfd : makeViewSFD fe first K i
        = ⟨viewFlag fe first K i, viewRowIndex fe first K i, -2, 0⟩ := by
      simp [makeViewSFD, h0]
    have hall : ∀ d, d < K → viewFlag fe first K i d = false :=
      (filter_range_length_zero_iff K _).mp h0
    refine ⟨?_, ?_, ?_⟩
    · simp only [hsfd]
      exact iff_of_true (by simp) hall
    · simp only [hsfd]
      refine iff_of_false (by decide) ?_
      rintro ⟨d₁, d₂, hd₁, hd₂, hne, hf₁, hf₂⟩
      rw [hall d₁ hd₁] at hf₁
      exact Bool.false_ne_true hf₁
    · simp only [hsfd]
      intro hne _
      exact absurd rfl hne
  · by_cases h1 : 1 < ((List.range K).filter (viewFlag fe first K i)).length
    · have hsfd : makeViewSFD fe first K i
          = ⟨viewFlag fe first K i, viewRowIndex fe first K i, -1, 0⟩ := by
        simp [makeViewSFD, h0, h1]
      obtain ⟨a, b, hma, hmb, hab⟩ :=
        two_mem_of_one_lt_length ((List.nodup_range K).filter _) h1
      have hfa := List.mem_filter.mp hma
      have hfb := List.mem_filter.mp hmb
      refine ⟨?_, ?_, ?_⟩
      · simp only [hsfd]
        refine iff_of_false (by decide) ?_
        intro hall
        rw [hall a (List.mem_range.mp hfa.1)] at hfa
        exact Bool.false_ne_true hfa.2
      · simp only [hsfd]
        refine iff_of_true (by simp)
          ⟨a, b, List.mem_range.mp hfa.1, List.mem_range.mp hfb.1, hab,
            hfa.2, hfb.2⟩
      · simp only [hsfd]
        intro _ hne
        exact absurd rfl hne
    · have hcnt : ((List.range K).filter (viewFlag fe first K i)).length = 1 := by
        omega
      obtain ⟨d0, hd0⟩ := List.length_eq_one.mp hcnt
      have hfind : (List.range K).find? (viewFlag fe first K i) = some d0 := by
        rw [← List.filter_head?, hd0]
        rfl
      have hmem : d0 ∈ (List.range K).filter (viewFlag fe first K i) := by
        rw [hd0]; exact List.mem_singleton.mpr rfl
      have hd0K : d0 < K := List.mem_range.mp (List.mem_filter.mp hmem).1
      have hflag0 : viewFlag fe first K i d0 = true := (List.mem_filter.mp hmem).2
      obtain ⟨r, hr⟩ := Option.isSome_iff_exists.mp (hrow d0 hd0K hflag0)
      have hsfd : makeViewSFD fe first K i
          = ⟨viewFlag fe first K i, viewRowIndex fe first K i, (r : Int), d0⟩ := by
        simp only [makeViewSFD, h0, if_neg, h1, hfind]
        simp [hr]
      have huniq : ∀ d', d' < K → viewFlag fe first K i d' = true → d' = d0 := by
        intro d' hd' hf'
        have : d' ∈ (List.range K).filter (viewFlag fe first K i) :=
          List.mem_filter.mpr ⟨List.mem_range.mpr hd', hf'⟩
        rw [hd0] at this
        exact List.mem_singleton.mp this
      refine ⟨?_, ?_, ?_⟩
      · simp only [hsfd]
        refine iff_of_false (by omega) ?_
        intro hall
        rw [hall d0 hd0K] at hflag0
        exact Bool.false_ne_true hflag0
      · simp only [hsfd]
        refine iff_of_false (by omega) ?_
        rintro ⟨d₁, d₂, hd₁, hd₂, hne, hf₁, hf₂⟩
        exact hne ((huniq d₁ hd₁ hf₁).trans (huniq d₂ hd₂ hf₂).symm)
      · simp only [hsfd]
        intro _ _
        exact ⟨d0, hd0K, hflag0, huniq, rfl, by omega, by simpa using hr⟩

/-- Every set flag of a view on a well-formed element (with the view's
component window inside the element's components, which the constructors
assert) has a genuine row-table entry. -/
theorem viewRowIndex_isSome_of_flag (fe : FE) (hwf : fe.WellFormed)
    (first K i : Nat) (hi : i < fe.n_dofs_per_cell)
    (hK : first + K - 1 < fe.n_components) :
    ∀ d, d < K → viewFlag fe first K i d = true →
      (viewRowIndex fe first K i d).isSome = true := by
  intro d hd hflag
  unfold viewRowIndex
  rw [if_pos hflag]
  unfold viewFlag at hflag
  rw [if_pos hd] at hflag
  by_cases hp : (fe.is_primitive || fe.is_primitive_sf i) = true
  · rw [if_pos hp] at hflag
    obtain ⟨hlt, hmask⟩ := hwf i hp
    have heq : first + d = fe.system_to_component_index i := by
      simpa using hflag
    rw [rowTableEntry_isSome fe i _ hi (by omega), hmask (first + d)]
    simp [heq]
  · rw [if_neg hp] at hflag
    have hcomp : first + d < fe.n_components := by omega
    rw [rowTableEntry_isSome fe i _ hi hcomp]
    exact hflag

/-- A small concrete two-component element used to evaluate the theorems on
a concrete input: shape function 0 is nonzero in component 0 only, shape
function 1 in both components, shape function 2 in component 1 only. -/
def feEx : FE where
  n_dofs_per_cell := 3
  n_components := 2
  is_primitive := false
  is_primitive_sf := fun _ => false
  system_to_component_index := fun _ => 0
  nonzero_components := fun i c =>
    match i, c with
    | 0, 0 => true
    | 1, 0 => true
    | 1, 1 => true
    | 2, 1 => true
    | _, _ => false

theorem feEx_wellFormed : feEx.WellFormed := by
  intro i h
  simp [feEx] at h

/-- C1: for every Vector, SymmetricTensor, or Tensor view constructed from a
well-formed finite-element descriptor and a component offset (the window
fitting inside the element's components, as the constructors assert), and
every shape function, `single_nonzero_component` is `-2` iff all `K`
per-sub-component nonzero flags are false, `-1` iff more than one flag is
true, and otherwise it equals the row index of the unique true
sub-component, with `single_nonzero_component_index` equal to that
sub-component's index. -/
theorem view_classifier_correct (dim spacedim : Nat) (fe : FE)
    (hwf : fe.WellFormed) (first i : Nat) (hi : i < fe.n_dofs_per_cell) :
    (first + spacedim - 1 < fe.n_components →
      classifierCorrect (Vector.shape_function_data spacedim fe first i)
        spacedim) ∧
    (first + symTensor2Components dim - 1 < fe.n_components →
      classifierCorrect (SymmetricTensor.shape_function_data dim fe first i)
        (symTensor2Components dim)) ∧
    (first + dim * dim - 1 < fe.n_components →
      classifierCorrect (Tensor.shape_function_data dim fe first i)
        (dim * dim)) := by
  refine ⟨fun hK => ?_, fun hK => ?_, fun hK => ?_⟩ <;>
    exact makeViewSFD_classifierCorrect fe first _ i
      (viewRowIndex_isSome_of_flag fe hwf first _ i hi hK)

/-- Witness for C1: the classifier property evaluated on the concrete
element `feEx` (Vector view with 2 components at offset 0, shape
function 1, which is nonzero in both components). -/
theorem view_classifier_correct_witness :
    classifierCorrect (Vector.shape_function_data 2 feEx 0 1) 2 :=
  (view_classifier_correct 2 2 feEx feEx_wellFormed 0 1 (by decide)).1
    (by decide)

/-- C2: the row table has, for every shape function, exactly
`n_nonzero_components` non-sentinel entries in its row (one per set
component, in increasing component order), and the non-sentinel row numbers
over the whole table are exactly the contiguous range
`[0, totalNonzero fe)`, in order, with no gaps or repeats. -/
theorem row_table_complete (fe : FE) :
    (∀ i, i < fe.n_dofs_per_cell →
      (((make_shape_function_to_row_table fe).getD i []).filterMap id).length
        = fe.n_nonzero_components i) ∧
    (∀ i c, i < fe.n_dofs_per_cell → c < fe.n_components →
      (rowTableEntry fe i c).isSome = fe.nonzero_components i c) ∧
    ((make_shape_function_to_row_table fe).flatten.filterMap id
      = List.range (totalNonzero fe)) := by
  refine ⟨?_, ?_, ?_⟩
  · intro i hi
    have hgd : (List.range fe.n_dofs_per_cell).getD i 0 = i := by
      simp [List.getD_eq_getElem?_getD, List.getElem?_range hi]
    unfold make_shape_function_to_row_table
    rw [tableRows_getD fe _ 0 i (by simpa using hi), hgd,
      rowEntriesAux_filterMap]
    simp only [List.length_map, List.length_range]
    rfl
  · intro i c hi hc
    exact rowTableEntry_isSome fe i c hi hc
  · unfold make_shape_function_to_row_table totalNonzero
    rw [tableRows_flatten_filterMap]
    simp [sumNnc]

/-- Witness for C2: the row-table properties evaluated on the concrete
element `feEx`. -/
theorem row_table_complete_witness :
    (((make_shape_function_to_row_table feEx).getD 1 []).filterMap id).length
        = feEx.n_nonzero_components 1 ∧
    (rowTableEntry feEx 1 0).isSome = feEx.nonzero_components 1 0 ∧
    (make_shape_function_to_row_table feEx).flatten.filterMap id
      = List.range (totalNonzero feEx) :=
  ⟨(row_table_complete feEx).1 1 (by decide),
   (row_table_complete feEx).2.1 1 0 (by decide) (by decide),
   (row_table_complete feEx).2.2⟩

/-! ## Accumulation kernels (`FEValuesViews::internal::do_function_*`)

The kernels are generic over the coefficient type `Number`; they are
embedded over `ℚ`, for which `internal::CheckForZero` is the literal test
`value == 0`.  Dense shape tables indexed `[row][q_point]` are embedded as
functions `Nat → Nat → ℚ`; a rank-1 gradient table additionally takes the
derivative direction (`Nat → Nat → Nat → ℚ`), a rank-2 Hessian table two
of them.  Tensor-valued outputs are embedded component-wise: each kernel
returns the entry of the output at a quadrature point and output
(sub-)component. -/

/-- The row a scalar-view shape function's data is stored in.  Only read
under the nonzero-flag guard, where the table entry is non-sentinel. -/
def ScalarSFD.row (s : ScalarSFD) : Nat := s.row_index.getD 0

/-- The row the `d`-th sub-component of a view shape function is stored
in.  Only read under the per-sub-component flag guard, where the table
entry is non-sentinel. -/
def ViewSFD.row (s : ViewSFD) (d : Nat) : Nat := (s.row_index d).getD 0

/-- Scalar `do_function_values`: sum of coefficient times shape value over
the shape functions that are nonzero in the selected component, skipping
zero coefficients. -/
def do_function_values_scalar (n : Nat) (dof_values : Nat → ℚ)
    (shape_values : Nat → Nat → ℚ) (sfd : Nat → ScalarSFD) (q : Nat) : ℚ :=
  ∑ sf ∈ Finset.range n,
    if (sfd sf).is_nonzero_shape_function_component = true then
      (if dof_values sf = 0 then 0
       else dof_values sf * shape_values (sfd sf).row q)
    else 0

/-- Scalar `do_function_derivatives` (any derivative order), embedded at a
fixed slot of the rank-`order` derivative tensor: `shape_derivatives` is
the table of that tensor slot, and scaling by the coefficient acts on the
tensor component-wise. -/
def do_function_derivatives_scalar (n : Nat) (dof_values : Nat → ℚ)
    (shape_derivatives : Nat → Nat → ℚ) (sfd : Nat → ScalarSFD) (q : Nat) : ℚ :=
  ∑ sf ∈ Finset.range n,
    if (sfd sf).is_nonzero_shape_function_component = true then
      (if dof_values sf = 0 then 0
       else dof_values sf * shape_derivatives (sfd sf).row q)
    else 0

/-- The `trace` of a rank-2 tensor over `s` space dimensions: the sum of its
diagonal entries. -/
def trace2 (s : Nat) (t : Nat → Nat → ℚ) : ℚ :=
  ∑ d ∈ Finset.range s, t d d

/-- Scalar `do_function_laplacians`: coefficient times the trace of the
rank-2 shape Hessian, summed over the nonzero shape functions. -/
def do_function_laplacians_scalar (s n : Nat) (dof_values : Nat → ℚ)
    (shape_hessians : Nat → Nat → Nat → Nat → ℚ) (sfd : Nat → ScalarSFD)
    (q : Nat) : ℚ :=
  ∑ sf ∈ Finset.range n,
    if (sfd sf).is_nonzero_shape_function_component = true then
      (if dof_values sf = 0 then 0
       else dof_values sf * trace2 s (shape_hessians (sfd sf).row q))
    else 0

/-- Vector `do_function_values`, at quadrature point `q` and output
component `comp`: fast single-nonzero-component path when the classifier
is not `-1`, otherwise the loop over all `spacedim` sub-components. -/
def do_function_values_vector (spacedim n : Nat) (dof_values : Nat → ℚ)
    (shape_values : Nat → Nat → ℚ) (sfd : Nat → ViewSFD) (q comp : Nat) : ℚ :=
  ∑ sf ∈ Finset.range n,
    if (sfd sf).single_nonzero_component = -2 then 0
    else if dof_values sf = 0 then 0
    else if (sfd sf).single_nonzero_component ≠ -1 then
      (if comp = (sfd sf).single_nonzero_component_index then
        dof_values sf * shape_values (sfd sf).single_nonzero_component.toNat q
      else 0)
    else
      (if comp < spacedim ∧
          (sfd sf).is_nonzero_shape_function_component comp = true then
        dof_values sf * shape_values ((sfd sf).row comp) q
      else 0)

/-- Vector `do_function_derivatives` (any order), embedded at a fixed slot
of the rank-`order` derivative tensor, at quadrature point `q` and output
component `comp`. -/
def do_function_derivatives_vector (spacedim n : Nat) (dof_values : Nat → ℚ)
    (shape_derivatives : Nat → Nat → ℚ) (sfd : Nat → ViewSFD)
    (q comp : Nat) : ℚ :=
  ∑ sf ∈ Finset.range n,
    if (sfd sf).single_nonzero_component = -2 then 0
    else if dof_values sf = 0 then 0
    else if (sfd sf).single_nonzero_component ≠ -1 then
      (if comp = (sfd sf).single_nonzero_component_index then
        dof_values sf *
          shape_derivatives (sfd sf).single_nonzero_component.toNat q
      else 0)
    else
      (if comp < spacedim ∧
          (sfd sf).is_nonzero_shape_function_component comp = true then
        dof_values sf * shape_derivatives ((sfd sf).row comp) q
      else 0)

/-- Modelled from the spec: the external helper `symmetrize_single_row(n, g)`
(the rank-1 row `g` placed into matrix row `n` and symmetrized), entry
`(i, j)`. -/
def symmetrize_single_row (n : Nat) (g : Nat → ℚ) (i j : Nat) : ℚ :=
  ((if i = n then g j else 0) + (if j = n then g i else 0)) / 2

/-- Vector `do_function_symmetric_gradients`, entry `(i, j)` at quadrature
point `q`: fast path via `symmetrize_single_row`, loop path assembling the
gradient rows of the flagged sub-components and symmetrizing
(`symmetrize(T)[i][j] = (T[i][j] + T[j][i]) / 2`). -/
def do_function_symmetric_gradients_vector (spacedim n : Nat)
    (dof_values : Nat → ℚ) (shape_gradients : Nat → Nat → Nat → ℚ)
    (sfd : Nat → ViewSFD) (q i j : Nat) : ℚ :=
  ∑ sf ∈ Finset.range n,
    if (sfd sf).single_nonzero_component = -2 then 0
    else if dof_values sf = 0 then 0
    else if (sfd sf).single_nonzero_component ≠ -1 then
      dof_values sf *
        symmetrize_single_row (sfd sf).single_nonzero_component_index
          (shape_gradients (sfd sf).single_nonzero_component.toNat q) i j
    else
      (let grad : Nat → Nat → ℚ := fun d e =>
        if d < spacedim ∧
            (sfd sf).is_nonzero_shape_function_component d = true then
          dof_values sf * shape_gradients ((sfd sf).row d) q e
        else 0
       (grad i j + grad j i) / 2)

/-- Vector `do_function_divergences` at quadrature point `q`: the diagonal
contraction of the field's Jacobian. -/
def do_function_divergences_vector (spacedim n : Nat) (dof_values : Nat → ℚ)
    (shape_gradients : Nat → Nat → Nat → ℚ) (sfd : Nat → ViewSFD)
    (q : Nat) : ℚ :=
  ∑ sf ∈ Finset.range n,
    if (sfd sf).single_nonzero_component = -2 then 0
    else if dof_values sf = 0 then 0
    else if (sfd sf).single_nonzero_component ≠ -1 then
      dof_values sf *
        shape_gradients (sfd sf).single_nonzero_component.toNat q
          (sfd sf).single_nonzero_component_index
    else
      ∑ d ∈ Finset.range spacedim,
        if (sfd sf).is_nonzero_shape_function_component d = true then
          dof_values sf * shape_gradients ((sfd sf).row d) q d
        else 0

/-- Vector `do_function_laplacians`, at quadrature point `q` and output
component `comp`: coefficient times the trace of the sub-component's shape
Hessian. -/
def do_function_laplacians_vector (spacedim n : Nat) (dof_values : Nat → ℚ)
    (shape_hessians : Nat → Nat → Nat → Nat → ℚ) (sfd : Nat → ViewSFD)
    (q comp : Nat) : ℚ :=
  ∑ sf ∈ Finset.range n,
    if (sfd sf).single_nonzero_component = -2 then 0
    else if dof_values sf = 0 then 0
    else if (sfd sf).single_nonzero_component ≠ -1 then
      (if comp = (sfd sf).single_nonzero_component_index then
        dof_values sf *
          trace2 spacedim
            (shape_hessians (sfd sf).single_nonzero_component.toNat q)
      else 0)
    else
      (if comp < spacedim ∧
          (sfd sf).is_nonzero_shape_function_component comp = true then
        dof_values sf * trace2 spacedim (shape_hessians ((sfd sf).row comp) q)
      else 0)

/-- The 2d branch of `do_function_curls` (the single curl component): the
nonzero sub-component 0 contributes `-value * grad[1]`, sub-component 1
contributes `+value * grad[0]`, in the fast path as in the loop path. -/
def do_function_curls_2d (n : Nat) (dof_values : Nat → ℚ)
    (shape_gradients : Nat → Nat → Nat → ℚ) (sfd : Nat → ViewSFD)
    (q : Nat) : ℚ :=
  ∑ sf ∈ Finset.range n,
    if (sfd sf).single_nonzero_component = -2 then 0
    else if dof_values sf = 0 then 0
    else if (sfd sf).single_nonzero_component ≠ -1 then
      (if (sfd sf).single_nonzero_component_index = 0 then
        -(dof_values sf *
          shape_gradients (sfd sf).single_nonzero_component.toNat q 1)
      else
        dof_values sf *
          shape_gradients (sfd sf).single_nonzero_component.toNat q 0)
    else
      ((if (sfd sf).is_nonzero_shape_function_component 0 = true then
          -(dof_values sf * shape_gradients ((sfd sf).row 0) q 1)
        else 0)
       + (if (sfd sf).is_nonzero_shape_function_component 1 = true then
          dof_values sf * shape_gradients ((sfd sf).row 1) q 0
        else 0))

/-- The contribution pattern of the 3d curl: a shape function nonzero in
sub-component `idx` with gradient row `g` contributes this to curl
component `c` (the antisymmetric combination of the partial derivatives,
as the explicit case split of the source writes it). -/
def curl3Term (g : Nat → ℚ) (idx c : Nat) : ℚ :=
  if idx = 0 then (if c = 1 then g 2 else if c = 2 then -(g 1) else 0)
  else if idx = 1 then (if c = 0 then -(g 2) else if c = 2 then g 0 else 0)
  else if idx = 2 then (if c = 0 then g 1 else if c = 1 then -(g 0) else 0)
  else 0

/-- The 3d branch of `do_function_curls`, curl component `c` at quadrature
point `q`. -/
def do_function_curls_3d (n : Nat) (dof_values : Nat → ℚ)
    (shape_gradients : Nat → Nat → Nat → ℚ) (sfd : Nat → ViewSFD)
    (q c : Nat) : ℚ :=
  ∑ sf ∈ Finset.range n,
    if (sfd sf).single_nonzero_component = -2 then 0
    else if dof_values sf = 0 then 0
    else if (sfd sf).single_nonzero_component ≠ -1 then
      dof_values sf *
        curl3Term (shape_gradients (sfd sf).single_nonzero_component.toNat q)
          (sfd sf).single_nonzero_component_index c
    else
      ∑ d ∈ Finset.range 3,
        if (sfd sf).is_nonzero_shape_function_component d = true then
          dof_values sf * curl3Term (shape_gradients ((sfd sf).row d) q) d c
        else 0

/-- The dispatcher `do_function_curls`: the `switch (spacedim)` case split.  The 1d case
is the precondition violation `Assert(false, "Computing the curl in 1d is
not a useful operation")`, embedded as `Except.error`; 2d produces the
single-component curl, 3d the three-component curl. -/
def do_function_curls (spacedim n : Nat) (dof_values : Nat → ℚ)
    (shape_gradients : Nat → Nat → Nat → ℚ) (sfd : Nat → ViewSFD) :
    Except Unit (Nat → Nat → ℚ) :=
  match spacedim with
  | 1 => Except.error ()
  | 2 => Except.ok (fun q c =>
      if c = 0 then do_function_curls_2d n dof_values shape_gradients sfd q
      else 0)
  | 3 => Except.ok (do_function_curls_3d n dof_values shape_gradients sfd)
  | _ => Except.ok (fun _ _ => 0)

/-- Modelled from the spec: the external
`SymmetricTensor<2, s>::unrolled_to_component_indices` — symmetric storage
is one entry per pair `(i, j)` with `i ≤ j`, the `s` diagonal entries
first, then the off-diagonal pairs in lexicographic order. -/
def symUnroll (s k : Nat) : Nat × Nat :=
  if k < s then (k, k)
  else ((List.range s).flatMap (fun i =>
    (List.range s).filterMap (fun j =>
      if i < j then some (i, j) else none))).getD (k - s) (0, 0)

/-- Modelled from the spec: the external
`Tensor<2, s>::unrolled_to_component_indices` — row-major unrolling of the
`s × s` entries. -/
def tensorUnroll (s k : Nat) : Nat × Nat := (k / s, k % s)

/-- SymmetricTensor `do_function_values`, at quadrature point `q` and
unrolled output slot `k` (the write to tensor position
`unrolled_to_component_indices(d)` is the write to unrolled slot `d`). -/
def do_function_values_symtensor (K n : Nat) (dof_values : Nat → ℚ)
    (shape_values : Nat → Nat → ℚ) (sfd : Nat → ViewSFD) (q k : Nat) : ℚ :=
  ∑ sf ∈ Finset.range n,
    if (sfd sf).single_nonzero_component = -2 then 0
    else if dof_values sf = 0 then 0
    else if (sfd sf).single_nonzero_component ≠ -1 then
      (if k = (sfd sf).single_nonzero_component_index then
        dof_values sf * shape_values (sfd sf).single_nonzero_component.toNat q
      else 0)
    else
      (if k < K ∧ (sfd sf).is_nonzero_shape_function_component k = true then
        dof_values sf * shape_values ((sfd sf).row k) q
      else 0)

/-- The trigger condition of the unimplemented-path guard of the tensor
divergence/gradient kernels: some shape function with classifier `-1` and a
nonzero coefficient has a set flag among the view's `K` sub-components
(the loop `for d < K: if flag[d] then Assert(false)`). -/
def unimplementedGuard (K n : Nat) (dof_values : Nat → ℚ)
    (sfd : Nat → ViewSFD) : Bool :=
  (List.range n).any (fun sf =>
    decide ((sfd sf).single_nonzero_component = -1)
    && !decide (dof_values sf = 0)
    && (List.range K).any (sfd sf).is_nonzero_shape_function_component)

/-- One shape function's contribution in the single-nonzero-component path
of the SymmetricTensor `do_function_divergences`, at quadrature point `q`
and output row `r`: with the unique nonzero sub-component unrolling to
`(ii, jj)`, row `ii` receives `value * grad[jj]`, and when `ii ≠ jj` row
`jj` additionally receives `value * grad[ii]`. -/
def symdiv_contrib (spacedim : Nat) (value : ℚ)
    (shape_gradients : Nat → Nat → Nat → ℚ) (s : ViewSFD) (q r : Nat) : ℚ :=
  if s.single_nonzero_component = -2 then 0
  else if value = 0 then 0
  else if s.single_nonzero_component ≠ -1 then
    ((if r = (symUnroll spacedim s.single_nonzero_component_index).1 then
        value * shape_gradients s.single_nonzero_component.toNat q
          (symUnroll spacedim s.single_nonzero_component_index).2
      else 0)
     + (if r = (symUnroll spacedim s.single_nonzero_component_index).2 ∧
          (symUnroll spacedim s.single_nonzero_component_index).1
            ≠ (symUnroll spacedim s.single_nonzero_component_index).2 then
        value * shape_gradients s.single_nonzero_component.toNat q
          (symUnroll spacedim s.single_nonzero_component_index).1
      else 0))
  else 0

/-- SymmetricTensor `do_function_divergences`.  A shape function with
classifier `-1`, nonzero coefficient and some set flag reaches the
`Assert(false, ExcNotImplemented())` guard, embedded as `Except.error`;
otherwise the output is the sum of the single-nonzero-component
contributions. -/
def do_function_divergences_symtensor (spacedim K n : Nat)
    (dof_values : Nat → ℚ) (shape_gradients : Nat → Nat → Nat → ℚ)
    (sfd : Nat → ViewSFD) : Except Unit (Nat → Nat → ℚ) :=
  if unimplementedGuard K n dof_values sfd then
    Except.error ()
  else
    Except.ok (fun q r =>
      ∑ sf ∈ Finset.range n,
        symdiv_contrib spacedim (dof_values sf) shape_gradients (sfd sf) q r)

/-- One shape function's contribution in the single-nonzero-component path
of the Tensor `do_function_divergences`, at quadrature point `q` and output
row `r`: with the unique nonzero sub-component unrolling to `(ii, jj)`,
row `ii` receives `value * grad[jj]`. -/
def tensordiv_contrib (spacedim : Nat) (value : ℚ)
    (shape_gradients : Nat → Nat → Nat → ℚ) (s : ViewSFD) (q r : Nat) : ℚ :=
  if s.single_nonzero_component = -2 then 0
  else if value = 0 then 0
  else if s.single_nonzero_component ≠ -1 then
    (if r = (tensorUnroll spacedim s.single_nonzero_component_index).1 then
      value * shape_gradients s.single_nonzero_component.toNat q
        (tensorUnroll spacedim s.single_nonzero_component_index).2
    else 0)
  else 0

/-- Tensor `do_function_divergences`: like the symmetric variant, the
multiple-nonzero-sub-components path is the unimplemented-path guard
`Assert(false, ExcNotImplemented())`, embedded as `Except.error`. -/
def do_function_divergences_tensor (spacedim K n : Nat)
    (dof_values : Nat → ℚ) (shape_gradients : Nat → Nat → Nat → ℚ)
    (sfd : Nat → ViewSFD) : Except Unit (Nat → Nat → ℚ) :=
  if unimplementedGuard K n dof_values sfd then
    Except.error ()
  else
    Except.ok (fun q r =>
      ∑ sf ∈ Finset.range n,
        tensordiv_contrib spacedim (dof_values sf) shape_gradients (sfd sf) q r)

/-- Tensor `do_function_values`, at quadrature point `q` and unrolled
output slot `k`. -/
def do_function_values_tensor (K n : Nat) (dof_values : Nat → ℚ)
    (shape_values : Nat → Nat → ℚ) (sfd : Nat → ViewSFD) (q k : Nat) : ℚ :=
  ∑ sf ∈ Finset.range n,
    if (sfd sf).single_nonzero_component = -2 then 0
    else if dof_values sf = 0 then 0
    else if (sfd sf).single_nonzero_component ≠ -1 then
      (if k = (sfd sf).single_nonzero_component_index then
        dof_values sf * shape_values (sfd sf).single_nonzero_component.toNat q
      else 0)
    else
      (if k < K ∧ (sfd sf).is_nonzero_shape_function_component k = true then
        dof_values sf * shape_values ((sfd sf).row k) q
      else 0)

/-- One shape function's contribution in the single-nonzero-component path
of the Tensor `do_function_gradients`: `value * shape_gradient` written
into tensor position `unrolled_to_component_indices(comp)`; output indexed
`(q, ii, jj, derivative direction)`. -/
def tensorgrad_contrib (spacedim : Nat) (value : ℚ)
    (shape_gradients : Nat → Nat → Nat → ℚ) (s : ViewSFD)
    (q ii jj e : Nat) : ℚ :=
  if s.single_nonzero_component = -2 then 0
  else if value = 0 then 0
  else if s.single_nonzero_component ≠ -1 then
    (if (ii, jj) = tensorUnroll spacedim s.single_nonzero_component_index then
      value * shape_gradients s.single_nonzero_component.toNat q e
    else 0)
  else 0

/-- Tensor `do_function_gradients`: single-nonzero-component fast path
writing `value * shape_gradient` into tensor position
`unrolled_to_component_indices(comp)`; the multi-component path is the
unimplemented-path guard, embedded as `Except.error`. -/
def do_function_gradients_tensor (spacedim K n : Nat)
    (dof_values : Nat → ℚ) (shape_gradients : Nat → Nat → Nat → ℚ)
    (sfd : Nat → ViewSFD) : Except Unit (Nat → Nat → Nat → Nat → ℚ) :=
  if unimplementedGuard K n dof_values sfd then
    Except.error ()
  else
    Except.ok (fun q ii jj e =>
      ∑ sf ∈ Finset.range n,
        tensorgrad_contrib spacedim (dof_values sf) shape_gradients (sfd sf)
          q ii jj e)

/-! ### Linearity of the kernels

Each kernel's per-shape-function term factors as `coefficient * payload`
with a coefficient-free payload: the zero-coefficient skip contributes `0`,
which is what accumulating `0 * payload` would have contributed. -/

theorem sum_mul_linear (n : Nat) (dv1 dv2 : Nat → ℚ) (a b : ℚ) (p : Nat → ℚ) :
    (∑ sf ∈ Finset.range n, (a * dv1 sf + b * dv2 sf) * p sf)
      = a * (∑ sf ∈ Finset.range n, dv1 sf * p sf)
        + b * (∑ sf ∈ Finset.range n, dv2 sf * p sf) := by
  rw [Finset.mul_sum, Finset.mul_sum, ← Finset.sum_add_distrib]
  exact Finset.sum_congr rfl fun sf _ => by ring

theorem scalar_guard_eq (A : Prop) [Decidable A] (x E : ℚ) :
    (if A then (if x = 0 then (0 : ℚ) else x * E) else 0)
      = x * (if A then E else 0) := by
  by_cases hA : A
  · by_cases hx : x = 0 <;> simp [hA, hx]
  · simp [hA]

theorem do_function_values_scalar_eq (n : Nat) (dv : Nat → ℚ)
    (V : Nat → Nat → ℚ) (sfd : Nat → ScalarSFD) (q : Nat) :
    do_function_values_scalar n dv V sfd q
      = ∑ sf ∈ Finset.range n, dv sf *
          (if (sfd sf).is_nonzero_shape_function_component = true
           then V (sfd sf).row q else 0) := by
  unfold do_function_values_scalar
  exact Finset.sum_congr rfl fun sf _ => scalar_guard_eq _ _ _

theorem do_function_derivatives_scalar_eq (n : Nat) (dv : Nat → ℚ)
    (D : Nat → Nat → ℚ) (sfd : Nat → ScalarSFD) (q : Nat) :
    do_function_derivatives_scalar n dv D sfd q
      = ∑ sf ∈ Finset.range n, dv sf *
          (if (sfd sf).is_nonzero_shape_function_component = true
           then D (sfd sf).row q else 0) := by
  unfold do_function_derivatives_scalar
  exact Finset.sum_congr rfl fun sf _ => scalar_guard_eq _ _ _

theorem do_function_laplacians_scalar_eq (s n : Nat) (dv : Nat → ℚ)
    (H : Nat → Nat → Nat → Nat → ℚ) (sfd : Nat → ScalarSFD) (q : Nat) :
    do_function_laplacians_scalar s n dv H sfd q
      = ∑ sf ∈ Finset.range n, dv sf *
          (if (sfd sf).is_nonzero_shape_function_component = true
           then trace2 s (H (sfd sf).row q) else 0) := by
  unfold do_function_laplacians_scalar
  exact Finset.sum_congr rfl fun sf _ => scalar_guard_eq _ _ _

theorem do_function_values_vector_eq (spacedim n : Nat) (dv : Nat → ℚ)
    (V : Nat → Nat → ℚ) (sfd : Nat → ViewSFD) (q comp : Nat) :
    do_function_values_vector spacedim n dv V sfd q comp
      = ∑ sf ∈ Finset.range n, dv sf *
          (if (sfd sf).single_nonzero_component = -2 then 0
           else if (sfd sf).single_nonzero_component ≠ -1 then
             (if comp = (sfd sf).single_nonzero_component_index then
               V (sfd sf).single_nonzero_component.toNat q else 0)
           else
             (if comp < spacedim ∧
                 (sfd sf).is_nonzero_shape_function_component comp = true then
               V ((sfd sf).row comp) q else 0)) := by
  unfold do_function_values_vector
  refine Finset.sum_congr rfl fun sf _ => ?_
  by_cases h2 : (sfd sf).single_nonzero_component = -2
  · simp [h2]
  · by_cases hx : dv sf = 0
    · simp [h2, hx]
    · by_cases h1 : (sfd sf).single_nonzero_component = -1 <;>
        simp [h2, hx, h1, mul_ite, mul_zero]

theorem do_function_derivatives_vector_eq (spacedim n : Nat) (dv : Nat → ℚ)
    (D : Nat → Nat → ℚ) (sfd : Nat → ViewSFD) (q comp : Nat) :
    do_function_derivatives_vector spacedim n dv D sfd q comp
      = ∑ sf ∈ Finset.range n, dv sf *
          (if (sfd sf).single_nonzero_component = -2 then 0
           else if (sfd sf).single_nonzero_component ≠ -1 then
             (if comp = (sfd sf).single_nonzero_component_index then
               D (sfd sf).single_nonzero_component.toNat q else 0)
           else
             (if comp < spacedim ∧
                 (sfd sf).is_nonzero_shape_function_component comp = true then
               D ((sfd sf).row comp) q else 0)) := by
  unfold do_function_derivatives_vector
  refine Finset.sum_congr rfl fun sf _ => ?_
  by_cases h2 : (sfd sf).single_nonzero_component = -2
  · simp [h2]
  · by_cases hx : dv sf = 0
    · simp [h2, hx]
    · by_cases h1 : (sfd sf).single_nonzero_component = -1 <;>
        simp [h2, hx, h1, mul_ite, mul_zero]

theorem do_function_laplacians_vector_eq (spacedim n : Nat) (dv : Nat → ℚ)
    (H : Nat → Nat → Nat → Nat → ℚ) (sfd : Nat → ViewSFD) (q comp : Nat) :
    do_function_laplacians_vector spacedim n dv H sfd q comp
      = ∑ sf ∈ Finset.range n, dv sf *
          (if (sfd sf).single_nonzero_component = -2 then 0
           else if (sfd sf).single_nonzero_component ≠ -1 then
             (if comp = (sfd sf).single_nonzero_component_index then
               trace2 spacedim (H (sfd sf).single_nonzero_component.toNat q)
             else 0)
           else
             (if comp < spacedim ∧
                 (sfd sf).is_nonzero_shape_function_component comp = true then
               trace2 spacedim (H ((sfd sf).row comp) q) else 0)) := by
  unfold do_function_laplacians_vector
  refine Finset.sum_congr rfl fun sf _ => ?_
  by_cases h2 : (sfd sf).single_nonzero_component = -2
  · simp [h2]
  · by_cases hx : dv sf = 0
    · simp [h2, hx]
    · by_cases h1 : (sfd sf).single_nonzero_component = -1 <;>
        simp [h2, hx, h1, mul_ite, mul_zero]

theorem do_function_divergences_vector_eq (spacedim n : Nat) (dv : Nat → ℚ)
    (G : Nat → Nat → Nat → ℚ) (sfd : Nat → ViewSFD) (q : Nat) :
    do_function_divergences_vector spacedim n dv G sfd q
      = ∑ sf ∈ Finset.range n, dv sf *
          (if (sfd sf).single_nonzero_component = -2 then 0
           else if (sfd sf).single_nonzero_component ≠ -1 then
             G (sfd sf).single_nonzero_component.toNat q
               (sfd sf).single_nonzero_component_index
           else
             ∑ d ∈ Finset.range spacedim,
               if (sfd sf).is_nonzero_shape_function_component d = true then
                 G ((sfd sf).row d) q d
               else 0) := by
  unfold do_function_divergences_vector
  refine Finset.sum_congr rfl fun sf _ => ?_
  by_cases h2 : (sfd sf).single_nonzero_component = -2
  · simp [h2]
  · by_cases hx : dv sf = 0
    · simp [h2, hx]
    · by_cases h1 : (sfd sf).single_nonzero_component = -1 <;>
        simp [h2, hx, h1, Finset.mul_sum, mul_ite, mul_zero]

theorem do_function_symmetric_gradients_vector_eq (spacedim n : Nat)
    (dv : Nat → ℚ) (G : Nat → Nat → Nat → ℚ) (sfd : Nat → ViewSFD)
    (q i j : Nat) :
    do_function_symmetric_gradients_vector spacedim n dv G sfd q i j
      = ∑ sf ∈ Finset.range n, dv sf *
          (if (sfd sf).single_nonzero_component = -2 then 0
           else if (sfd sf).single_nonzero_component ≠ -1 then
             symmetrize_single_row (sfd sf).single_nonzero_component_index
               (G (sfd sf).single_nonzero_component.toNat q) i j
           else
             (((if i < spacedim ∧
                  (sfd sf).is_nonzero_shape_function_component i = true then
                 G ((sfd sf).row i) q j else 0)
               + (if j < spacedim ∧
                  (sfd sf).is_nonzero_shape_function_component j = true then
                 G ((sfd sf).row j) q i else 0)) / 2)) := by
  unfold do_function_symmetric_gradients_vector
  refine Finset.sum_congr rfl fun sf _ => ?_
  by_cases h2 : (sfd sf).single_nonzero_component = -2
  · simp [h2]
  · by_cases hx : dv sf = 0
    · simp [h2, hx]
    · by_cases h1 : (sfd sf).single_nonzero_component = -1 <;>
        simp [h2, hx, h1, mul_ite, mul_zero, mul_add, ← mul_div_assoc]

theorem do_function_curls_2d_eq (n : Nat) (dv : Nat → ℚ)
    (G : Nat → Nat → Nat → ℚ) (sfd : Nat → ViewSFD) (q : Nat) :
    do_function_curls_2d n dv G sfd q
      = ∑ sf ∈ Finset.range n, dv sf *
          (if (sfd sf).single_nonzero_component = -2 then 0
           else if (sfd sf).single_nonzero_component ≠ -1 then
             (if (sfd sf).single_nonzero_component_index = 0 then
               -(G (sfd sf).single_nonzero_component.toNat q 1)
             else G (sfd sf).single_nonzero_component.toNat q 0)
           else
             ((if (sfd sf).is_nonzero_shape_function_component 0 = true then
                 -(G ((sfd sf).row 0) q 1) else 0)
              + (if (sfd sf).is_nonzero_shape_function_component 1 = true then
                 G ((sfd sf).row 1) q 0 else 0))) := by
  unfold do_function_curls_2d
  refine Finset.sum_congr rfl fun sf _ => ?_
  by_cases h2 : (sfd sf).single_nonzero_component = -2
  · simp [h2]
  · by_cases hx : dv sf = 0
    · simp [h2, hx]
    · by_cases h1 : (sfd sf).single_nonzero_component = -1 <;>
        simp [h2, hx, h1, mul_ite, mul_zero, mul_add, mul_neg]

theorem do_function_curls_3d_eq (n : Nat) (dv : Nat → ℚ)
    (G : Nat → Nat → Nat → ℚ) (sfd : Nat → ViewSFD) (q c : Nat) :
    do_function_curls_3d n dv G sfd q c
      = ∑ sf ∈ Finset.range n, dv sf *
          (if (sfd sf).single_nonzero_component = -2 then 0
           else if (sfd sf).single_nonzero_component ≠ -1 then
             curl3Term (G (sfd sf).single_nonzero_component.toNat q)
               (sfd sf).single_nonzero_component_index c
           else
             ∑ d ∈ Finset.range 3,
               if (sfd sf).is_nonzero_shape_function_component d = true then
                 curl3Term (G ((sfd sf).row d) q) d c
               else 0) := by
  unfold do_function_curls_3d
  refine Finset.sum_congr rfl fun sf _ => ?_
  by_cases h2 : (sfd sf).single_nonzero_component = -2
  · simp [h2]
  · by_cases hx : dv sf = 0
    · simp [h2, hx]
    · by_cases h1 : (sfd sf).single_nonzero_component = -1 <;>
        simp [h2, hx, h1, Finset.mul_sum, mul_ite, mul_zero]

theorem do_function_values_symtensor_eq (K n : Nat) (dv : Nat → ℚ)
    (V : Nat → Nat → ℚ) (sfd : Nat → ViewSFD) (q k : Nat) :
    do_function_values_symtensor K n dv V sfd q k
      = ∑ sf ∈ Finset.range n, dv sf *
          (if (sfd sf).single_nonzero_component = -2 then 0
           else if (sfd sf).single_nonzero_component ≠ -1 then
             (if k = (sfd sf).single_nonzero_component_index then
               V (sfd sf).single_nonzero_component.toNat q else 0)
           else
             (if k < K ∧
                 (sfd sf).is_nonzero_shape_function_component k = true then
               V ((sfd sf).row k) q else 0)) := by
  unfold do_function_values_symtensor
  refine Finset.sum_congr rfl fun sf _ => ?_
  by_cases h2 : (sfd sf).single_nonzero_component = -2
  · simp [h2]
  · by_cases hx : dv sf = 0
    · simp [h2, hx]
    · by_cases h1 : (sfd sf).single_nonzero_component = -1 <;>
        simp [h2, hx, h1, mul_ite, mul_zero]

theorem do_function_values_tensor_eq (K n : Nat) (dv : Nat → ℚ)
    (V : Nat → Nat → ℚ) (sfd : Nat → ViewSFD) (q k : Nat) :
    do_function_values_tensor K n dv V sfd q k
      = ∑ sf ∈ Finset.range n, dv sf *
          (if (sfd sf).single_nonzero_component = -2 then 0
           else if (sfd sf).single_nonzero_component ≠ -1 then
             (if k = (sfd sf).single_nonzero_component_index then
               V (sfd sf).single_nonzero_component.toNat q else 0)
           else
             (if k < K ∧
                 (sfd sf).is_nonzero_shape_function_component k = true then
               V ((sfd sf).row k) q else 0)) := by
  unfold do_function_values_tensor
  refine Finset.sum_congr rfl fun sf _ => ?_
  by_cases h2 : (sfd sf).single_nonzero_component = -2
  · simp [h2]
  · by_cases hx : dv sf = 0
    · simp [h2, hx]
    · by_cases h1 : (sfd sf).single_nonzero_component = -1 <;>
        simp [h2, hx, h1, mul_ite, mul_zero]

theorem symdiv_contrib_eq (spacedim : Nat) (x : ℚ)
    (G : Nat → Nat → Nat → ℚ) (s : ViewSFD) (q r : Nat) :
    symdiv_contrib spacedim x G s q r
      = x *
          (if s.single_nonzero_component = -2 then 0
           else if s.single_nonzero_component ≠ -1 then
             ((if r = (symUnroll spacedim s.single_nonzero_component_index).1 then
                G s.single_nonzero_component.toNat q
                  (symUnroll spacedim s.single_nonzero_component_index).2
              else 0)
              + (if r = (symUnroll spacedim s.single_nonzero_component_index).2 ∧
                   (symUnroll spacedim s.single_nonzero_component_index).1
                     ≠ (symUnroll spacedim s.single_nonzero_component_index).2 then
                G s.single_nonzero_component.toNat q
                  (symUnroll spacedim s.single_nonzero_component_index).1
              else 0))
           else 0) := by
  unfold symdiv_contrib
  by_cases h2 : s.single_nonzero_component = -2
  · simp [h2]
  · by_cases hx : x = 0
    · simp [h2, hx]
    · by_cases h1 : s.single_nonzero_component = -1 <;>
        simp [h2, hx, h1, mul_ite, mul_zero, mul_add]

theorem tensordiv_contrib_eq (spacedim : Nat) (x : ℚ)
    (G : Nat → Nat → Nat → ℚ) (s : ViewSFD) (q r : Nat) :
    tensordiv_contrib spacedim x G s q r
      = x *
          (if s.single_nonzero_component = -2 then 0
           else if s.single_nonzero_component ≠ -1 then
             (if r = (tensorUnroll spacedim s.single_nonzero_component_index).1 then
               G s.single_nonzero_component.toNat q
                 (tensorUnroll spacedim s.single_nonzero_component_index).2
             else 0)
           else 0) := by
  unfold tensordiv_contrib
  by_cases h2 : s.single_nonzero_component = -2
  · simp [h2]
  · by_cases hx : x = 0
    · simp [h2, hx]
    · by_cases h1 : s.single_nonzero_component = -1 <;>
        simp [h2, hx, h1, mul_ite, mul_zero]

theorem tensorgrad_contrib_eq (spacedim : Nat) (x : ℚ)
    (G : Nat → Nat → Nat → ℚ) (s : ViewSFD) (q ii jj e : Nat) :
    tensorgrad_contrib spacedim x G s q ii jj e
      = x *
          (if s.single_nonzero_component = -2 then 0
           else if s.single_nonzero_component ≠ -1 then
             (if (ii, jj) = tensorUnroll spacedim s.single_nonzero_component_index
              then G s.single_nonzero_component.toNat q e
              else 0)
           else 0) := by
  unfold tensorgrad_contrib
  by_cases h2 : s.single_nonzero_component = -2
  · simp [h2]
  · by_cases hx : x = 0
    · simp [h2, hx]
    · by_cases h1 : s.single_nonzero_component = -1 <;>
        simp [h2, hx, h1, mul_ite, mul_zero]

theorem symdiv_contrib_linear (spacedim : Nat) (x1 x2 a b : ℚ)
    (G : Nat → Nat → Nat → ℚ) (s : ViewSFD) (q r : Nat) :
    symdiv_contrib spacedim (a * x1 + b * x2) G s q r
      = a * symdiv_contrib spacedim x1 G s q r
        + b * symdiv_contrib spacedim x2 G s q r := by
  rw [symdiv_contrib_eq, symdiv_contrib_eq, symdiv_contrib_eq]
  ring

theorem tensordiv_contrib_linear (spacedim : Nat) (x1 x2 a b : ℚ)
    (G : Nat → Nat → Nat → ℚ) (s : ViewSFD) (q r : Nat) :
    tensordiv_contrib spacedim (a * x1 + b * x2) G s q r
      = a * tensordiv_contrib spacedim x1 G s q r
        + b * tensordiv_contrib spacedim x2 G s q r := by
  rw [tensordiv_contrib_eq, tensordiv_contrib_eq, tensordiv_contrib_eq]
  ring

theorem tensorgrad_contrib_linear (spacedim : Nat) (x1 x2 a b : ℚ)
    (G : Nat → Nat → Nat → ℚ) (s : ViewSFD) (q ii jj e : Nat) :
    tensorgrad_contrib spacedim (a * x1 + b * x2) G s q ii jj e
      = a * tensorgrad_contrib spacedim x1 G s q ii jj e
        + b * tensorgrad_contrib spacedim x2 G s q ii jj e := by
  rw [tensorgrad_contrib_eq, tensorgrad_contrib_eq, tensorgrad_contrib_eq]
  ring

/-- When no shape function has classifier `-1`, the unimplemented-path
guard of the tensor divergence/gradient kernels never fires, whatever the
coefficients. -/
theorem unimplementedGuard_false (K n : Nat) (dv : Nat → ℚ)
    (sfd : Nat → ViewSFD)
    (h : ∀ sf, sf < n → (sfd sf).single_nonzero_component ≠ -1) :
    unimplementedGuard K n dv sfd = false := by
  unfold unimplementedGuard
  rw [List.any_eq_false]
  intro sf hsf
  simp [h sf (List.mem_range.mp hsf)]

/-- C3: every accumulation kernel is linear in the coefficient array:
evaluating on `a·c1 + b·c2` equals `a·(result on c1) + b·(result on c2)`,
component-wise at every quadrature point, and in particular the all-zero
coefficient array yields the additive identity despite the
zero-coefficient skip branch.  The scalar/vector derivative kernels cover
gradients, Hessians and third derivatives slot-wise; `curls_2d`/`curls_3d`
are the dispatched branches of `do_function_curls`; for the tensor
divergence/gradient kernels, whose multi-component path is an
unimplemented-path guard, linearity is stated on data without classifier
`-1`, where the guard cannot fire. -/
theorem kernels_linear :
    (∀ (n : Nat) (dv1 dv2 : Nat → ℚ) (a b : ℚ) (V : Nat → Nat → ℚ)
        (sfd : Nat → ScalarSFD) (q : Nat),
      do_function_values_scalar n (fun sf => a * dv1 sf + b * dv2 sf) V sfd q
          = a * do_function_values_scalar n dv1 V sfd q
            + b * do_function_values_scalar n dv2 V sfd q
        ∧ do_function_values_scalar n (fun _ => 0) V sfd q = 0) ∧
    (∀ (n : Nat) (dv1 dv2 : Nat → ℚ) (a b : ℚ) (D : Nat → Nat → ℚ)
        (sfd : Nat → ScalarSFD) (q : Nat),
      do_function_derivatives_scalar n (fun sf => a * dv1 sf + b * dv2 sf)
            D sfd q
          = a * do_function_derivatives_scalar n dv1 D sfd q
            + b * do_function_derivatives_scalar n dv2 D sfd q
        ∧ do_function_derivatives_scalar n (fun _ => 0) D sfd q = 0) ∧
    (∀ (s n : Nat) (dv1 dv2 : Nat → ℚ) (a b : ℚ)
        (H : Nat → Nat → Nat → Nat → ℚ) (sfd : Nat → ScalarSFD) (q : Nat),
      do_function_laplacians_scalar s n (fun sf => a * dv1 sf + b * dv2 sf)
            H sfd q
          = a * do_function_laplacians_scalar s n dv1 H sfd q
            + b * do_function_laplacians_scalar s n dv2 H sfd q
        ∧ do_function_laplacians_scalar s n (fun _ => 0) H sfd q = 0) ∧
    (∀ (s n : Nat) (dv1 dv2 : Nat → ℚ) (a b : ℚ) (V : Nat → Nat → ℚ)
        (sfd : Nat → ViewSFD) (q comp : Nat),
      do_function_values_vector s n (fun sf => a * dv1 sf + b * dv2 sf)
            V sfd q comp
          = a * do_function_values_vector s n dv1 V sfd q comp
            + b * do_function_values_vector s n dv2 V sfd q comp
        ∧ do_function_values_vector s n (fun _ => 0) V sfd q comp = 0) ∧
    (∀ (s n : Nat) (dv1 dv2 : Nat → ℚ) (a b : ℚ) (D : Nat → Nat → ℚ)
        (sfd : Nat → ViewSFD) (q comp : Nat),
      do_function_derivatives_vector s n (fun sf => a * dv1 sf + b * dv2 sf)
            D sfd q comp
          = a * do_function_derivatives_vector s n dv1 D sfd q comp
            + b * do_function_derivatives_vector s n dv2 D sfd q comp
        ∧ do_function_derivatives_vector s n (fun _ => 0) D sfd q comp = 0) ∧
    (∀ (s n : Nat) (dv1 dv2 : Nat → ℚ) (a b : ℚ)
        (H : Nat → Nat → Nat → Nat → ℚ) (sfd : Nat → ViewSFD) (q comp : Nat),
      do_function_laplacians_vector s n (fun sf => a * dv1 sf + b * dv2 sf)
            H sfd q comp
          = a * do_function_laplacians_vector s n dv1 H sfd q comp
            + b * do_function_laplacians_vector s n dv2 H sfd q comp
        ∧ do_function_laplacians_vector s n (fun _ => 0) H sfd q comp = 0) ∧
    (∀ (s n : Nat) (dv1 dv2 : Nat → ℚ) (a b : ℚ) (G : Nat → Nat → Nat → ℚ)
        (sfd : Nat → ViewSFD) (q : Nat),
      do_function_divergences_vector s n (fun sf => a * dv1 sf + b * dv2 sf)
            G sfd q
          = a * do_function_divergences_vector s n dv1 G sfd q
            + b * do_function_divergences_vector s n dv2 G sfd q
        ∧ do_function_divergences_vector s n (fun _ => 0) G sfd q = 0) ∧
    (∀ (s n : Nat) (dv1 dv2 : Nat → ℚ) (a b : ℚ) (G : Nat → Nat → Nat → ℚ)
        (sfd : Nat → ViewSFD) (q i j : Nat),
      do_function_symmetric_gradients_vector s n
            (fun sf => a * dv1 sf + b * dv2 sf) G sfd q i j
          = a * do_function_symmetric_gradients_vector s n dv1 G sfd q i j
            + b * do_function_symmetric_gradients_vector s n dv2 G sfd q i j
        ∧ do_function_symmetric_gradients_vector s n (fun _ => 0) G sfd q i j
            = 0) ∧
    (∀ (n : Nat) (dv1 dv2 : Nat → ℚ) (a b : ℚ) (G : Nat → Nat → Nat → ℚ)
        (sfd : Nat → ViewSFD) (q : Nat),
      do_function_curls_2d n (fun sf => a * dv1 sf + b * dv2 sf) G sfd q
          = a * do_function_curls_2d n dv1 G sfd q
            + b * do_function_curls_2d n dv2 G sfd q
        ∧ do_function_curls_2d n (fun _ => 0) G sfd q = 0) ∧
    (∀ (n : Nat) (dv1 dv2 : Nat → ℚ) (a b : ℚ) (G : Nat → Nat → Nat → ℚ)
        (sfd : Nat → ViewSFD) (q c : Nat),
      do_function_curls_3d n (fun sf => a * dv1 sf + b * dv2 sf) G sfd q c
          = a * do_function_curls_3d n dv1 G sfd q c
            + b * do_function_curls_3d n dv2 G sfd q c
        ∧ do_function_curls_3d n (fun _ => 0) G sfd q c = 0) ∧
    (∀ (K n : Nat) (dv1 dv2 : Nat → ℚ) (a b : ℚ) (V : Nat → Nat → ℚ)
        (sfd : Nat → ViewSFD) (q k : Nat),
      do_function_values_symtensor K n (fun sf => a * dv1 sf + b * dv2 sf)
            V sfd q k
          = a * do_function_values_symtensor K n dv1 V sfd q k
            + b * do_function_values_symtensor K n dv2 V sfd q k
        ∧ do_function_values_symtensor K n (fun _ => 0) V sfd q k = 0) ∧
    (∀ (K n : Nat) (dv1 dv2 : Nat → ℚ) (a b : ℚ) (V : Nat → Nat → ℚ)
        (sfd : Nat → ViewSFD) (q k : Nat),
      do_function_values_tensor K n (fun sf => a * dv1 sf + b * dv2 sf)
            V sfd q k
          = a * do_function_values_tensor K n dv1 V sfd q k
            + b * do_function_values_tensor K n dv2 V sfd q k
        ∧ do_function_values_tensor K n (fun _ => 0) V sfd q k = 0) ∧
    (∀ (s K n : Nat) (dv1 dv2 : Nat → ℚ) (a b : ℚ) (G : Nat → Nat → Nat → ℚ)
        (sfd : Nat → ViewSFD),
      (∀ sf, sf < n → (sfd sf).single_nonzero_component ≠ -1) →
      do_function_divergences_symtensor s K n
            (fun sf => a * dv1 sf + b * dv2 sf) G sfd
          = Except.ok (fun q r =>
              a * (∑ sf ∈ Finset.range n,
                    symdiv_contrib s (dv1 sf) G (sfd sf) q r)
              + b * (∑ sf ∈ Finset.range n,
                    symdiv_contrib s (dv2 sf) G (sfd sf) q r))
        ∧ do_function_divergences_symtensor s K n dv1 G sfd
          = Except.ok (fun q r => ∑ sf ∈ Finset.range n,
              symdiv_contrib s (dv1 sf) G (sfd sf) q r)
        ∧ do_function_divergences_symtensor s K n dv2 G sfd
          = Except.ok (fun q r => ∑ sf ∈ Finset.range n,
              symdiv_contrib s (dv2 sf) G (sfd sf) q r)
        ∧ do_function_divergences_symtensor s K n (fun _ => 0) G sfd
          = Except.ok (fun _ _ => 0)) ∧
    (∀ (s K n : Nat) (dv1 dv2 : Nat → ℚ) (a b : ℚ) (G : Nat → Nat → Nat → ℚ)
        (sfd : Nat → ViewSFD),
      (∀ sf, sf < n → (sfd sf).single_nonzero_component ≠ -1) →
      do_function_divergences_tensor s K n
            (fun sf => a * dv1 sf + b * dv2 sf) G sfd
          = Except.ok (fun q r =>
              a * (∑ sf ∈ Finset.range n,
                    tensordiv_contrib s (dv1 sf) G (sfd sf) q r)
              + b * (∑ sf ∈ Finset.range n,
                    tensordiv_contrib s (dv2 sf) G (sfd sf) q r))
        ∧ do_function_divergences_tensor s K n dv1 G sfd
          = Except.ok (fun q r => ∑ sf ∈ Finset.range n,
              tensordiv_contrib s (dv1 sf) G (sfd sf) q r)
        ∧ do_function_divergences_tensor s K n dv2 G sfd
          = Except.ok (fun q r => ∑ sf ∈ Finset.range n,
              tensordiv_contrib s (dv2 sf) G (sfd sf) q r)
        ∧ do_function_divergences_tensor s K n (fun _ => 0) G sfd
          = Except.ok (fun _ _ => 0)) ∧
    (∀ (s K n : Nat) (dv1 dv2 : Nat → ℚ) (a b : ℚ) (G : Nat → Nat → Nat → ℚ)
        (sfd : Nat → ViewSFD),
      (∀ sf, sf < n → (sfd sf).single_nonzero_component ≠ -1) →
      do_function_gradients_tensor s K n
            (fun sf => a * dv1 sf + b * dv2 sf) G sfd
          = Except.ok (fun q ii jj e =>
              a * (∑ sf ∈ Finset.range n,
                    tensorgrad_contrib s (dv1 sf) G (sfd sf) q ii jj e)
              + b * (∑ sf ∈ Finset.range n,
                    tensorgrad_contrib s (dv2 sf) G (sfd sf) q ii jj e))
        ∧ do_function_gradients_tensor s K n dv1 G sfd
          = Except.ok (fun q ii jj e => ∑ sf ∈ Finset.range n,
              tensorgrad_contrib s (dv1 sf) G (sfd sf) q ii jj e)
        ∧ do_function_gradients_tensor s K n dv2 G sfd
          = Except.ok (fun q ii jj e => ∑ sf ∈ Finset.range n,
              tensorgrad_contrib s (dv2 sf) G (sfd sf) q ii jj e)
        ∧ do_function_gradients_tensor s K n (fun _ => 0) G sfd
          = Except.ok (fun _ _ _ _ => 0)) := by
  refine ⟨?_, ?_, ?_, ?_, ?_, ?_, ?_, ?_, ?_, ?_, ?_, ?_, ?_, ?_, ?_⟩
  · intro n dv1 dv2 a b V sfd q
    refine ⟨?_, ?_⟩
    · rw [do_function_values_scalar_eq, do_function_values_scalar_eq,
        do_function_values_scalar_eq]
      exact sum_mul_linear n dv1 dv2 a b _
    · rw [do_function_values_scalar_eq]; simp
  · intro n dv1 dv2 a b D sfd q
    refine ⟨?_, ?_⟩
    · rw [do_function_derivatives_scalar_eq, do_function_derivatives_scalar_eq,
        do_function_derivatives_scalar_eq]
      exact sum_mul_linear n dv1 dv2 a b _
    · rw [do_function_derivatives_scalar_eq]; simp
  · intro s n dv1 dv2 a b H sfd q
    refine ⟨?_, ?_⟩
    · rw [do_function_laplacians_scalar_eq, do_function_laplacians_scalar_eq,
        do_function_laplacians_scalar_eq]
      exact sum_mul_linear n dv1 dv2 a b _
    · rw [do_function_laplacians_scalar_eq]; simp
  · intro s n dv1 dv2 a b V sfd q comp
    refine ⟨?_, ?_⟩
    · rw [do_function_values_vector_eq, do_function_values_vector_eq,
        do_function_values_vector_eq]
      exact sum_mul_linear n dv1 dv2 a b _
    · rw [do_function_values_vector_eq]; simp
  · intro s n dv1 dv2 a b D sfd q comp
    refine ⟨?_, ?_⟩
    · rw [do_function_derivatives_vector_eq, do_function_derivatives_vector_eq,
        do_function_derivatives_vector_eq]
      exact sum_mul_linear n dv1 dv2 a b _
    · rw [do_function_derivatives_vector_eq]; simp
  · intro s n dv1 dv2 a b H sfd q comp
    refine ⟨?_, ?_⟩
    · rw [do_function_laplacians_vector_eq, do_function_laplacians_vector_eq,
        do_function_laplacians_vector_eq]
      exact sum_mul_linear n dv1 dv2 a b _
    · rw [do_function_laplacians_vector_eq]; simp
  · intro s n dv1 dv2 a b G sfd q
    refine ⟨?_, ?_⟩
    · rw [do_function_divergences_vector_eq, do_function_divergences_vector_eq,
        do_function_divergences_vector_eq]
      exact sum_mul_linear n dv1 dv2 a b _
    · rw [do_function_divergences_vector_eq]; simp
  · intro s n dv1 dv2 a b G sfd q i j
    refine ⟨?_, ?_⟩
    · rw [do_function_symmetric_gradients_vector_eq,
        do_function_symmetric_gradients_vector_eq,
        do_function_symmetric_gradients_vector_eq]
      exact sum_mul_linear n dv1 dv2 a b _
    · rw [do_function_symmetric_gradients_vector_eq]; simp
  · intro n dv1 dv2 a b G sfd q
    refine ⟨?_, ?_⟩
    · rw [do_function_curls_2d_eq, do_function_curls_2d_eq,
        do_function_curls_2d_eq]
      exact sum_mul_linear n dv1 dv2 a b _
    · rw [do_function_curls_2d_eq]; simp
  · intro n dv1 dv2 a b G sfd q c
    refine ⟨?_, ?_⟩
    · rw [do_function_curls_3d_eq, do_function_curls_3d_eq,
        do_function_curls_3d_eq]
      exact sum_mul_linear n dv1 dv2 a b _
    · rw [do_function_curls_3d_eq]; simp
  · intro K n dv1 dv2 a b V sfd q k
    refine ⟨?_, ?_⟩
    · rw [do_function_values_symtensor_eq, do_function_values_symtensor_eq,
        do_function_values_symtensor_eq]
      exact sum_mul_linear n dv1 dv2 a b _
    · rw [do_function_values_symtensor_eq]; simp
  · intro K n dv1 dv2 a b V sfd q k
    refine ⟨?_, ?_⟩
    · rw [do_function_values_tensor_eq, do_function_values_tensor_eq,
        do_function_values_tensor_eq]
      exact sum_mul_linear n dv1 dv2 a b _
    · rw [do_function_values_tensor_eq]; simp
  · intro s K n dv1 dv2 a b G sfd h
    refine ⟨?_, ?_, ?_, ?_⟩
    · unfold do_function_divergences_symtensor
      rw [unimplementedGuard_false K n _ sfd h]
      simp only [Bool.false_eq_true, if_false]
      congr 1
      funext q r
      rw [Finset.sum_congr rfl (fun sf _ =>
        symdiv_contrib_linear s (dv1 sf) (dv2 sf) a b G (sfd sf) q r)]
      rw [Finset.sum_add_distrib, ← Finset.mul_sum, ← Finset.mul_sum]
    · unfold do_function_divergences_symtensor
      rw [unimplementedGuard_false K n _ sfd h]
      simp only [Bool.false_eq_true, if_false]
    · unfold do_function_divergences_symtensor
      rw [unimplementedGuard_false K n _ sfd h]
      simp only [Bool.false_eq_true, if_false]
    · unfold do_function_divergences_symtensor
      rw [unimplementedGuard_false K n _ sfd h]
      simp only [Bool.false_eq_true, if_false]
      congr 1
      funext q r
      refine Finset.sum_eq_zero fun sf _ => ?_
      simp [symdiv_contrib]
  · intro s K n dv1 dv2 a b G sfd h
    refine ⟨?_, ?_, ?_, ?_⟩
    · unfold do_function_divergences_tensor
      rw [unimplementedGuard_false K n _ sfd h]
      simp only [Bool.false_eq_true, if_false]
      congr 1
      funext q r
      rw [Finset.sum_congr rfl (fun sf _ =>
        tensordiv_contrib_linear s (dv1 sf) (dv2 sf) a b G (sfd sf) q r)]
      rw [Finset.sum_add_distrib, ← Finset.mul_sum, ← Finset.mul_sum]
    · unfold do_function_divergences_tensor
      rw [unimplementedGuard_false K n _ sfd h]
      simp only [Bool.false_eq_true, if_false]
    · unfold do_function_divergences_tensor
      rw [unimplementedGuard_false K n _ sfd h]
      simp only [Bool.false_eq_true, if_false]
    · unfold do_function_divergences_tensor
      rw [unimplementedGuard_false K n _ sfd h]
      simp only [Bool.false_eq_true, if_false]
      congr 1
      funext q r
      refine Finset.sum_eq_zero fun sf _ => ?_
      simp [tensordiv_contrib]
  · intro s K n dv1 dv2 a b G sfd h
    refine ⟨?_, ?_, ?_, ?_⟩
    · unfold do_function_gradients_tensor
      rw [unimplementedGuard_false K n _ sfd h]
      simp only [Bool.false_eq_true, if_false]
      congr 1
      funext q ii jj e
      rw [Finset.sum_congr rfl (fun sf _ =>
        tensorgrad_contrib_linear s (dv1 sf) (dv2 sf) a b G (sfd sf) q ii jj e)]
      rw [Finset.sum_add_distrib, ← Finset.mul_sum, ← Finset.mul_sum]
    · unfold do_function_gradients_tensor
      rw [unimplementedGuard_false K n _ sfd h]
      simp only [Bool.false_eq_true, if_false]
    · unfold do_function_gradients_tensor
      rw [unimplementedGuard_false K n _ sfd h]
      simp only [Bool.false_eq_true, if_false]
    · unfold do_function_gradients_tensor
      rw [unimplementedGuard_false K n _ sfd h]
      simp only [Bool.false_eq_true, if_false]
      congr 1
      funext q ii jj e
      refine Finset.sum_eq_zero fun sf _ => ?_
      simp [tensorgrad_contrib]

/-- Witness for C3: the symmetric-tensor divergence linearity conjunct
evaluated on concrete data (one shape function of `feEx` viewed with a
2-sub-component window, which has a single nonzero component, so the
guard hypothesis holds concretely). -/
theorem kernels_linear_witness :
    do_function_divergences_symtensor 2 3 1
        (fun sf => (2 : ℚ) * (fun _ => (1 : ℚ)) sf
          + (3 : ℚ) * (fun _ => (5 : ℚ)) sf)
        (fun _ _ _ => (1 : ℚ)) (fun _ => makeViewSFD feEx 0 2 0)
      = Except.ok (fun q r =>
          (2 : ℚ) * (∑ sf ∈ Finset.range 1,
              symdiv_contrib 2 ((fun _ => (1 : ℚ)) sf) (fun _ _ _ => (1 : ℚ))
                ((fun _ => makeViewSFD feEx 0 2 0) sf) q r)
          + (3 : ℚ) * (∑ sf ∈ Finset.range 1,
              symdiv_contrib 2 ((fun _ => (5 : ℚ)) sf) (fun _ _ _ => (1 : ℚ))
                ((fun _ => makeViewSFD feEx 0 2 0) sf) q r)) :=
  (kernels_linear.2.2.2.2.2.2.2.2.2.2.2.2.1 2 3 1 (fun _ => 1) (fun _ => 5)
    2 3 (fun _ _ _ => 1) (fun _ => makeViewSFD feEx 0 2 0)
    (by decide)).1

/-- C4: for every coefficient array and every quadrature point, the scalar
Laplacian kernel's output equals the trace of the scalar Hessian kernel's
output at that point, for the same coefficients and shape-Hessian table
(the Hessian kernel is the order-2 derivative kernel, evaluated slot-wise
on the rank-2 table). -/
theorem laplacian_is_trace_of_hessian (s n : Nat) (dv : Nat → ℚ)
    (H : Nat → Nat → Nat → Nat → ℚ) (sfd : Nat → ScalarSFD) (q : Nat) :
    do_function_laplacians_scalar s n dv H sfd q
      = trace2 s (fun d e =>
          do_function_derivatives_scalar n dv (fun row qp => H row qp d e)
            sfd q) := by
  unfold trace2
  rw [do_function_laplacians_scalar_eq]
  rw [Finset.sum_congr rfl (fun d _ =>
    do_function_derivatives_scalar_eq n dv (fun row qp => H row qp d d) sfd q)]
  rw [Finset.sum_comm]
  refine Finset.sum_congr rfl fun sf _ => ?_
  by_cases hf : (sfd sf).is_nonzero_shape_function_component = true
  · simp [hf, trace2, Finset.mul_sum]
  · simp [hf]

/-- C5: in 2 space dimensions the curl kernel produces at every quadrature
point the single scalar component
`∂(comp 1)/∂x − ∂(comp 0)/∂y`: the sum over shape functions of coefficient
times `(gradient row of sub-component 1)[0]` minus coefficient times
`(gradient row of sub-component 0)[1]` (a sub-component outside the view's
window contributing zero), in both the single-nonzero-component fast path
and the multi-component loop path, provided each shape function's data is
classifier-consistent (as the `Vector` view constructor establishes). -/
theorem curl_2d_formula (n : Nat) (dv : Nat → ℚ) (G : Nat → Nat → Nat → ℚ)
    (sfd : Nat → ViewSFD) (q : Nat)
    (h : ∀ sf, sf < n → classifierCorrect (sfd sf) 2) :
    do_function_curls_2d n dv G sfd q
      = ∑ sf ∈ Finset.range n, dv sf *
          ((if (sfd sf).is_nonzero_shape_function_component 1 = true then
              G ((sfd sf).row 1) q 0 else 0)
           - (if (sfd sf).is_nonzero_shape_function_component 0 = true then
              G ((sfd sf).row 0) q 1 else 0)) := by
  rw [do_function_curls_2d_eq]
  refine Finset.sum_congr rfl fun sf hsf => ?_
  obtain ⟨hc1, hc2, hc3⟩ := h sf (Finset.mem_range.mp hsf)
  by_cases h2 : (sfd sf).single_nonzero_component = -2
  · have hall := hc1.mp h2
    have hf0 := hall 0 (by omega)
    have hf1 := hall 1 (by omega)
    simp [h2, hf0, hf1]
  · by_cases h1 : (sfd sf).single_nonzero_component = -1
    · rw [if_neg h2, if_neg (not_not_intro h1)]
      refine congrArg (fun z => dv sf * z) ?_
      by_cases hf0 : (sfd sf).is_nonzero_shape_function_component 0 = true
      all_goals by_cases hf1 :
        (sfd sf).is_nonzero_shape_function_component 1 = true
      all_goals simp [hf0, hf1]
      all_goals ring
    · obtain ⟨d, hdK, hflag, huniq, hidx, hpos, hrow⟩ := hc3 h2 h1
      have hrowd : (sfd sf).row d = (sfd sf).single_nonzero_component.toNat := by
        simp [ViewSFD.row, hrow]
      rcases (by omega : d = 0 ∨ d = 1) with rfl | rfl
      · have hf1 : (sfd sf).is_nonzero_shape_function_component 1 = false := by
          rcases Bool.eq_false_or_eq_true
            ((sfd sf).is_nonzero_shape_function_component 1) with hb | hb
          · exact absurd (huniq 1 (by omega) hb) (by omega)
          · exact hb
        rw [if_neg h2, if_pos h1, hidx]
        refine congrArg (fun z => dv sf * z) ?_
        simp [hflag, hf1, hrowd]
      · have hf0 : (sfd sf).is_nonzero_shape_function_component 0 = false := by
          rcases Bool.eq_false_or_eq_true
            ((sfd sf).is_nonzero_shape_function_component 0) with hb | hb
          · exact absurd (huniq 0 (by omega) hb) (by omega)
          · exact hb
        rw [if_neg h2, if_pos h1, hidx]
        refine congrArg (fun z => dv sf * z) ?_
        simp [hflag, hf0, hrowd]

/-- Witness for C5: the 2d curl formula evaluated on the Vector view of the
concrete element `feEx` (whose three shape functions exercise the fast
path for a unique sub-component 0, the loop path, and the fast path for a
unique sub-component 1). -/
theorem curl_2d_formula_witness :
    do_function_curls_2d 3 (fun _ => (1 : ℚ))
        (fun r qp d => (r : ℚ) + (qp : ℚ) + (d : ℚ))
        (fun sf => Vector.shape_function_data 2 feEx 0 sf) 0
      = ∑ sf ∈ Finset.range 3, (1 : ℚ) *
          ((if ViewSFD.is_nonzero_shape_function_component
                (Vector.shape_function_data 2 feEx 0 sf) 1 = true then
              (((Vector.shape_function_data 2 feEx 0 sf).row 1 : ℚ)
                + (0 : ℚ) + (0 : ℚ))
            else 0)
           - (if ViewSFD.is_nonzero_shape_function_component
                (Vector.shape_function_data 2 feEx 0 sf) 0 = true then
              (((Vector.shape_function_data 2 feEx 0 sf).row 0 : ℚ)
                + (0 : ℚ) + (1 : ℚ))
            else 0)) :=
  curl_2d_formula 3 (fun _ => (1 : ℚ))
    (fun r qp d => (r : ℚ) + (qp : ℚ) + (d : ℚ))
    (fun sf => Vector.shape_function_data 2 feEx 0 sf) 0
    (fun sf hsf => makeViewSFD_classifierCorrect feEx 0 2 sf
      (viewRowIndex_isSome_of_flag feEx feEx_wellFormed 0 2 sf hsf (by decide)))

/-- A shape function with classifier `-1`, nonzero coefficient and a set
flag makes the unimplemented-path guard fire. -/
theorem unimplementedGuard_true (K n : Nat) (dv : Nat → ℚ)
    (sfd : Nat → ViewSFD) (sf0 : Nat) (h0 : sf0 < n)
    (h1 : (sfd sf0).single_nonzero_component = -1) (h2 : dv sf0 ≠ 0)
    (h3 : ∃ d, d < K ∧ (sfd sf0).is_nonzero_shape_function_component d = true) :
    unimplementedGuard K n dv sfd = true := by
  unfold unimplementedGuard
  rw [List.any_eq_true]
  refine ⟨sf0, List.mem_range.mpr h0, ?_⟩
  obtain ⟨d, hd, hflag⟩ := h3
  simp only [List.any_eq_true, decide_eq_true_eq, Bool.and_eq_true,
    Bool.not_eq_true', decide_eq_false_iff_not]
  exact ⟨⟨h1, h2⟩, d, List.mem_range.mpr hd, hflag⟩

/-- C6: in the symmetric-tensor and general-tensor divergence kernels, any
shape function whose classifier is `-1` (multiple nonzero sub-components
among the view's components) with a nonzero coefficient makes the kernel
fail loudly (the unimplemented-path guard) rather than produce a numeric
result; and in the symmetric single-component path, a shape function whose
unique nonzero sub-component unrolls to `(ii, jj)` with `ii ≠ jj`
accumulates coefficient times gradient into both output row `ii` and
output row `jj` at every quadrature point. -/
theorem tensor_divergence_guard_and_offdiag (s K n : Nat) (dv : Nat → ℚ)
    (G : Nat → Nat → Nat → ℚ) (sfd : Nat → ViewSFD) :
    (∀ sf0, sf0 < n → (sfd sf0).single_nonzero_component = -1 →
      dv sf0 ≠ 0 →
      (∃ d, d < K ∧ (sfd sf0).is_nonzero_shape_function_component d = true) →
      do_function_divergences_symtensor s K n dv G sfd = Except.error ()
        ∧ do_function_divergences_tensor s K n dv G sfd = Except.error ()) ∧
    (∀ (x : ℚ) (e : ViewSFD) (q ii jj : Nat),
      e.single_nonzero_component ≠ -2 → e.single_nonzero_component ≠ -1 →
      symUnroll s e.single_nonzero_component_index = (ii, jj) → ii ≠ jj →
      x ≠ 0 →
      symdiv_contrib s x G e q ii = x * G e.single_nonzero_component.toNat q jj
        ∧ symdiv_contrib s x G e q jj
            = x * G e.single_nonzero_component.toNat q ii) := by
  constructor
  · intro sf0 h0 h1 h2 h3
    have hg := unimplementedGuard_true K n dv sfd sf0 h0 h1 h2 h3
    constructor
    · unfold do_function_divergences_symtensor
      rw [hg]
      rfl
    · unfold do_function_divergences_tensor
      rw [hg]
      rfl
  · intro x e q ii jj hm2 hm1 hunroll hne hx
    constructor
    · unfold symdiv_contrib
      rw [if_neg hm2, if_neg (by simpa using hx), if_pos hm1, hunroll]
      rw [if_pos rfl, if_neg (fun hcon => absurd hcon.1 hcon.2)]
      ring
    · unfold symdiv_contrib
      rw [if_neg hm2, if_neg (by simpa using hx), if_pos hm1, hunroll]
      rw [if_neg (fun hcon => hne hcon.symm), if_pos ⟨rfl, hne⟩]
      ring

/-- C8: requesting the curl in 1 space dimension hits the precondition
violation (`Assert(false, "Computing the curl in 1d is not a useful
operation")`) for every coefficient array; no curl value is produced. -/
theorem curl_1d_fails (n : Nat) (dv : Nat → ℚ)
    (G : Nat → Nat → Nat → ℚ) (sfd : Nat → ViewSFD) :
    do_function_curls 1 n dv G sfd = Except.error () := rfl

/-- A concrete view descriptor whose unique nonzero sub-component is the
unrolled slot 2 (the off-diagonal `(0, 1)` of a 2x2 symmetric tensor),
stored in row 5. -/
def sfdW : ViewSFD where
  is_nonzero_shape_function_component := fun d => decide (d = 2)
  row_index := fun d => if d = 2 then some 5 else none
  single_nonzero_component := 5
  single_nonzero_component_index := 2

/-- Witness for C6: shape function 1 of `feEx` is nonzero in both
components of a 2-sub-component window, so its classifier is `-1` and both
divergence kernels fail; and the off-diagonal descriptor `sfdW` feeds both
output rows 0 and 1. -/
theorem tensor_divergence_guard_and_offdiag_witness :
    (do_function_divergences_symtensor 2 2 2 (fun _ => (1 : ℚ))
        (fun _ _ _ => 1) (fun sf => makeViewSFD feEx 0 2 sf)
        = Except.error ()
      ∧ do_function_divergences_tensor 2 2 2 (fun _ => (1 : ℚ))
        (fun _ _ _ => 1) (fun sf => makeViewSFD feEx 0 2 sf)
        = Except.error ())
    ∧ (symdiv_contrib 2 (1 : ℚ) (fun _ _ _ => 1) sfdW 0 0 = 1 * 1
      ∧ symdiv_contrib 2 (1 : ℚ) (fun _ _ _ => 1) sfdW 0 1 = 1 * 1) :=
  ⟨(tensor_divergence_guard_and_offdiag 2 2 2 (fun _ => 1) (fun _ _ _ => 1)
      (fun sf => makeViewSFD feEx 0 2 sf)).1 1 (by decide) (by decide)
      (by norm_num) ⟨0, by decide, by decide⟩,
   (tensor_divergence_guard_and_offdiag 2 2 2 (fun _ => 1) (fun _ _ _ => 1)
      (fun sf => makeViewSFD feEx 0 2 sf)).2 1 sfdW 0 0 1 (by decide)
      (by decide) (by decide) (by decide) (by norm_num)⟩

/-! ## Cell similarity (`FEValuesBase::check_cell_similarity`,
`FEValues::do_reinit`) -/

/-- The state type `CellSimilarity::Similarity`. -/
inductive Similarity where
  | none_ : Similarity
  | translation : Similarity
  | inverted_translation : Similarity
  | invalid_next_cell : Similarity
deriving DecidableEq

/-- The classification `FEValuesBase::check_cell_similarity`, as a function of its observable
inputs: the process-wide worker-thread count (`MultithreadInfo::n_threads`),
whether a present cell is bound, the stored previous classification,
whether the new cell `is_translation_of` the previous one, the manifold and
ambient dimensions, and the previous and new cells' direction flags. -/
def check_cell_similarity (n_threads : Nat) (present_is_initialized : Bool)
    (prev : Similarity) (is_translation_of : Bool) (dim spacedim : Nat)
    (prev_direction_flag new_direction_flag : Bool) : Similarity :=
  if 1 < n_threads then Similarity.none_
  else
    let cs :=
      if present_is_initialized = false then Similarity.none_
      else if prev = Similarity.invalid_next_cell then Similarity.none_
      else if is_translation_of then Similarity.translation
      else Similarity.none_
    if dim < spacedim ∧ cs = Similarity.translation ∧
        prev_direction_flag ≠ new_direction_flag then
      Similarity.inverted_translation
    else cs

/-- The cell-similarity handling of `FEValues::do_reinit`: when the update
flags contain `update_mapping`, the stored classification is replaced by
the external Mapping's `fill_fe_values` return value. -/
def do_reinit_similarity (update_mapping : Bool)
    (current mapping_fill_result : Similarity) : Similarity :=
  if update_mapping then mapping_fill_result else current

/-- C7: the classification yields `none` whenever more than one worker
thread exists, or no cell was previously bound, or the previous
classification was `invalid_next_cell`; otherwise it is `translation` iff
the new cell is a pure translate of the previous one (else `none`), and a
translation is refined to `inverted_translation` exactly when
`dim < spacedim` and the direction flags differ. -/
theorem check_cell_similarity_spec (T : Nat) (init : Bool)
    (prev : Similarity) (trans : Bool) (dim spacedim : Nat) (f1 f2 : Bool) :
    ((1 < T ∨ init = false ∨ prev = Similarity.invalid_next_cell) →
      check_cell_similarity T init prev trans dim spacedim f1 f2
        = Similarity.none_) ∧
    (¬(1 < T) → init = true → prev ≠ Similarity.invalid_next_cell →
      ((trans = false →
        check_cell_similarity T init prev trans dim spacedim f1 f2
          = Similarity.none_) ∧
       (trans = true →
        check_cell_similarity T init prev trans dim spacedim f1 f2
          = (if dim < spacedim ∧ f1 ≠ f2 then Similarity.inverted_translation
             else Similarity.translation)))) := by
  constructor
  · rintro (hT | hinit | hprev)
    · simp [check_cell_similarity, hT]
    · simp [check_cell_similarity, hinit]
    · simp [check_cell_similarity, hprev]
  · intro hT hinit hprev
    constructor
    · intro htrans
      simp [check_cell_similarity, hT, hinit, hprev, htrans]
    · intro htrans
      simp [check_cell_similarity, hT, hinit, hprev, htrans]

/-- Witness for C7: concrete classifications — two worker threads give
`none`; a single thread on a bound cell with a valid previous
classification and a translated cell in codimension 1 with flipped
direction flag gives `inverted_translation`. -/
theorem check_cell_similarity_spec_witness :
    check_cell_similarity 2 true Similarity.none_ true 2 2 true true
        = Similarity.none_
      ∧ check_cell_similarity 1 true Similarity.none_ true 2 3 true false
        = (if 2 < 3 ∧ (true : Bool) ≠ false then Similarity.inverted_translation
           else Similarity.translation) :=
  ⟨(check_cell_similarity_spec 2 true Similarity.none_ true 2 2 true true).1
      (Or.inl (by decide)),
   ((check_cell_similarity_spec 1 true Similarity.none_ true 2 3 true
      false).2 (by decide) rfl (by decide)).2 rfl⟩

/-- C10: the classification step itself never outputs `invalid_next_cell`
(a preceding `invalid_next_cell` is absorbed back to `none`); after
`do_reinit`, the stored classification can be `invalid_next_cell` only as
the external Mapping's `fill_fe_values` return value when the mapping was
updated. -/
theorem similarity_never_invalid :
    (∀ (T : Nat) (init : Bool) (prev : Similarity) (trans : Bool)
        (dim spacedim : Nat) (f1 f2 : Bool),
      check_cell_similarity T init prev trans dim spacedim f1 f2
        ≠ Similarity.invalid_next_cell) ∧
    (∀ (T : Nat) (init trans : Bool) (dim spacedim : Nat) (f1 f2 : Bool),
      check_cell_similarity T init Similarity.invalid_next_cell trans dim
          spacedim f1 f2
        = Similarity.none_) ∧
    (∀ (um : Bool) (cur mr : Similarity),
      cur ≠ Similarity.invalid_next_cell →
      do_reinit_similarity um cur mr = Similarity.invalid_next_cell →
      um = true ∧ mr = Similarity.invalid_next_cell) := by
  refine ⟨?_, ?_, ?_⟩
  · intro T init prev trans dim spacedim f1 f2
    unfold check_cell_similarity
    by_cases hT : 1 < T
    · simp [hT]
    · simp only [hT, if_false]
      (repeat' split) <;> simp
  · intro T init trans dim spacedim f1 f2
    unfold check_cell_similarity
    by_cases hT : 1 < T
    · simp [hT]
    · by_cases hinit : init = false
      · simp [hT, hinit]
      · simp [hT, hinit]
  · intro um cur mr hcur h
    cases um with
    | false => exact absurd h hcur
    | true => exact ⟨rfl, h⟩

/-- Witness for C10: the `do_reinit` conjunct applied at a concrete input
where the mapping result is `invalid_next_cell`. -/
theorem similarity_never_invalid_witness :
    (true = true ∧ Similarity.invalid_next_cell = Similarity.invalid_next_cell) :=
  similarity_never_invalid.2.2 true Similarity.none_
    Similarity.invalid_next_cell (by decide) rfl

/-! ## The view cache (`internal::FEValuesViews::Cache`) -/

/-- The cache `internal::FEValuesViews::Cache`: one view per valid component offset,
each stored as the pair of its component offset and its per-shape-function
data. -/
structure Cache where
  scalars : List (Nat × (Nat → ScalarSFD))
  vectors : List (Nat × (Nat → ViewSFD))
  symmetric_second_order_tensors : List (Nat × (Nat → ViewSFD))
  second_order_tensors : List (Nat × (Nat → ViewSFD))

/-- The `Cache` constructor: `n_components` Scalar views; as many Vector
views as windows of `Tensor<1, spacedim>::n_independent_components
(= spacedim)` consecutive components fit (zero if none fit), and
analogously for SymmetricTensor with
`SymmetricTensor<2, spacedim>::n_independent_components` and Tensor with
`Tensor<2, spacedim>::n_independent_components (= spacedim²)` — each view
constructed at its component offset. -/
def Cache.make (dim spacedim : Nat) (fe : FE) : Cache where
  scalars :=
    (List.range fe.n_components).map
      (fun component => (component,
        fun i => Scalar.shape_function_data fe component i))
  vectors :=
    (List.range (if spacedim ≤ fe.n_components then
        fe.n_components - spacedim + 1 else 0)).map
      (fun component => (component,
        fun i => Vector.shape_function_data spacedim fe component i))
  symmetric_second_order_tensors :=
    (List.range (if symTensor2Components spacedim ≤ fe.n_components then
        fe.n_components - symTensor2Components spacedim + 1 else 0)).map
      (fun component => (component,
        fun i => SymmetricTensor.shape_function_data dim fe component i))
  second_order_tensors :=
    (List.range (if spacedim * spacedim ≤ fe.n_components then
        fe.n_components - spacedim * spacedim + 1 else 0)).map
      (fun component => (component,
        fun i => Tensor.shape_function_data dim fe component i))

/-- C9: the cache owns exactly `n_components` Scalar views,
`n_components − spacedim + 1` Vector views (zero when
`n_components < spacedim`), `n_components − (independent components of a
symmetric rank-2 tensor) + 1` SymmetricTensor views (zero when fewer
components than that), and `n_components − spacedim² + 1` Tensor views
(zero when fewer components than `spacedim²`) — one per sliding window of
consecutive components, at offsets `0, 1, …` in order. -/
theorem cache_counts (dim spacedim : Nat) (fe : FE) :
    ((Cache.make dim spacedim fe).scalars.length = fe.n_components
      ∧ (Cache.make dim spacedim fe).scalars.map Prod.fst
          = List.range fe.n_components) ∧
    ((Cache.make dim spacedim fe).vectors.length
        = (if spacedim ≤ fe.n_components then
            fe.n_components - spacedim + 1 else 0)
      ∧ (Cache.make dim spacedim fe).vectors.map Prod.fst
          = List.range (if spacedim ≤ fe.n_components then
              fe.n_components - spacedim + 1 else 0)) ∧
    ((Cache.make dim spacedim fe).symmetric_second_order_tensors.length
        = (if symTensor2Components spacedim ≤ fe.n_components then
            fe.n_components - symTensor2Components spacedim + 1 else 0)
      ∧ (Cache.make dim spacedim fe).symmetric_second_order_tensors.map
            Prod.fst
          = List.range (if symTensor2Components spacedim ≤ fe.n_components then
              fe.n_components - symTensor2Components spacedim + 1 else 0)) ∧
    ((Cache.make dim spacedim fe).second_order_tensors.length
        = (if spacedim * spacedim ≤ fe.n_components then
            fe.n_components - spacedim * spacedim + 1 else 0)
      ∧ (Cache.make dim spacedim fe).second_order_tensors.map Prod.fst
          = List.range (if spacedim * spacedim ≤ fe.n_components then
              fe.n_components - spacedim * spacedim + 1 else 0)) := by
  refine ⟨⟨?_, ?_⟩, ⟨?_, ?_⟩, ⟨?_, ?_⟩, ⟨?_, ?_⟩⟩ <;>
    simp [Cache.make, List.map_map, Function.comp_def]

end FEV
